/-
Verification of the broomrocket socket server (`src/server.py`).

The development shallowly embeds the program's core: the JSON wire codec
(`json.dumps` / `json.loads` as used through `ClientHandler.send` and
`ClientHandler.read_next`), the framed byte protocol (4-byte little-endian
signed length followed by the UTF-8 serialization), the `MessageHandler`
request/response logic, and the remote-proxy object model
(`SocketLoadedMesh` / `SocketCoordinate`), whose component writes fire a
change callback that forwards a `move_mesh` command.

Modelling conventions:
* Python strings are `List Char`; Python byte strings are `List Nat`
  (each element < 256).
* Numeric values carried in JSON payloads are modelled as `Int`
  (the program's claims only exercise integral coordinates; IEEE floats
  are outside the embedding).
* Fallible Python code is embedded in a state-plus-exceptions monad
  `PyM σ α = σ → σ × Except Err α`: state changes performed before an
  exception persist, as in real execution, and `try`/`except` is `pyTry`.
* The receive side of a socket is a deterministic byte queue: `recv n`
  returns up to `n` of the remaining bytes, and returns the empty byte
  string once the queue is exhausted (the peer has closed), exactly the
  situation the termination claims are about.
-/
import Mathlib

namespace Broomrocket

/-- Convert a Lean string literal to the `List Char` representation used for
Python strings throughout the embedding. -/
def chars (s : String) : List Char := s.data

/-- The Python exceptions the embedded code can raise.  `pipelineError`
carries `str(e)` for an exception raised by the external pipeline
(`broomrocket.run`); `infiniteLoop` marks a spot where the real code loops
forever (it is produced only by the embedding of `ClientHandler.read_next`'s
accumulation loop when no further byte can ever arrive). -/
inductive Err where
  | typeError
  | keyError (key : List Char)
  | osError
  | structError
  | unicodeDecodeError
  | jsonDecodeError
  | infiniteLoop
  | pipelineError (msg : List Char)
deriving DecidableEq, Repr

/-- `str(e)` for the embedded exceptions; only the `pipelineError` case is
observable through the claims (it is the message `MessageHandler.on_request`
writes into an error response). -/
def errStr : Err → List Char
  | .typeError => chars "'NoneType' object is not subscriptable"
  | .keyError k => '\'' :: (k ++ ['\''])
  | .osError => chars "Bad file descriptor"
  | .structError => chars "argument out of range"
  | .unicodeDecodeError => chars "invalid utf-8"
  | .jsonDecodeError => chars "Expecting value"
  | .infiniteLoop => chars "<<diverges>>"
  | .pipelineError m => m

/-- State-plus-exceptions monad for embedded Python code.  The final state is
kept even when an exception is raised, matching the fact that side effects
performed before a Python exception persist. -/
def PyM (σ : Type) (α : Type) := σ → σ × Except Err α

instance : Monad (PyM σ) where
  pure a := fun s => (s, .ok a)
  bind x f := fun s =>
    match x s with
    | (s', .ok a) => f a s'
    | (s', .error e) => (s', .error e)

/-- Lift a pure fallible computation into `PyM`. -/
def pyLift (r : Except Err α) : PyM σ α := fun s => (s, r)

/-- `try x except e: h e`, as in `MessageHandler.on_request`. -/
def pyTry (x : PyM σ α) (h : Err → PyM σ α) : PyM σ α := fun s =>
  match x s with
  | (s', .ok a) => (s', .ok a)
  | (s', .error e) => h e s'

/-- `try x finally: fin`, as in `ClientHandler.run`. -/
def pyFinally (x : PyM σ α) (fin : PyM σ Unit) : PyM σ α := fun s =>
  match x s with
  | (s', r) =>
    match fin s' with
    | (s'', .ok _) => (s'', r)
    | (s'', .error e) => (s'', .error e)

def pyGet : PyM σ σ := fun s => (s, .ok s)

def pySet (s : σ) : PyM σ Unit := fun _ => (s, .ok ())

/-- The JSON values exchanged on the wire.  Strings are `List Char`; numbers
are modelled as `Int` (see the header comment); objects are association
lists in Python dict insertion order. -/
inductive Json where
  | jnull
  | jbool (b : Bool)
  | jnum (n : Int)
  | jstr (s : List Char)
  | jarr (items : List Json)
  | jobj (members : List (List Char × Json))

mutual

/-- Structural equality of JSON values (Python `==` on decoded values). -/
def Json.beq : Json → Json → Bool
  | .jnull, .jnull => true
  | .jbool a, .jbool b => a == b
  | .jnum a, .jnum b => a == b
  | .jstr a, .jstr b => a == b
  | .jarr a, .jarr b => Json.beqList a b
  | .jobj a, .jobj b => Json.beqObj a b
  | _, _ => false

def Json.beqList : List Json → List Json → Bool
  | [], [] => true
  | a :: as, b :: bs => Json.beq a b && Json.beqList as bs
  | _, _ => false

def Json.beqObj : List (List Char × Json) → List (List Char × Json) → Bool
  | [], [] => true
  | (k, v) :: as, (k', v') :: bs => k == k' && Json.beq v v' && Json.beqObj as bs
  | _, _ => false

end

mutual

theorem Json.beq_iff : ∀ a b : Json, Json.beq a b = true ↔ a = b
  | .jnull, b => by cases b <;> simp [Json.beq]
  | .jbool x, b => by cases b <;> simp [Json.beq]
  | .jnum x, b => by cases b <;> simp [Json.beq]
  | .jstr x, b => by cases b <;> simp [Json.beq]
  | .jarr xs, b => by
    cases b <;> simp [Json.beq]
    exact Json.beqList_iff xs _
  | .jobj xs, b => by
    cases b <;> simp [Json.beq]
    exact Json.beqObj_iff xs _

theorem Json.beqList_iff : ∀ a b : List Json, Json.beqList a b = true ↔ a = b
  | [], b => by cases b <;> simp [Json.beqList]
  | x :: xs, b => by
    cases b with
    | nil => simp [Json.beqList]
    | cons y ys =>
      simp [Json.beqList, Json.beq_iff x y, Json.beqList_iff xs ys]

theorem Json.beqObj_iff :
    ∀ a b : List (List Char × Json), Json.beqObj a b = true ↔ a = b
  | [], b => by cases b <;> simp [Json.beqObj]
  | (k, v) :: xs, b => by
    cases b with
    | nil => simp [Json.beqObj]
    | cons y ys =>
      cases y with
      | mk k' v' =>
        simp [Json.beqObj, Json.beq_iff v v', Json.beqObj_iff xs ys, and_assoc]

end

instance : DecidableEq Json := fun a b =>
  decidable_of_iff (Json.beq a b = true) (Json.beq_iff a b)

instance {ε α : Type} [DecidableEq ε] [DecidableEq α] : DecidableEq (Except ε α) := fun a b =>
  match a, b with
  | .ok a, .ok b => decidable_of_iff (a = b) (by simp)
  | .error e, .error e' => decidable_of_iff (e = e') (by simp)
  | .ok _, .error _ => isFalse (by simp)
  | .error _, .ok _ => isFalse (by simp)

/-- First-match association-list lookup: Python dict indexing (dicts built by
this program never hold duplicate keys). -/
def lookupKV (k : List Char) : List (List Char × Json) → Option Json
  | [] => none
  | (k', v) :: rest => if k' = k then some v else lookupKV k rest

/-- `obj[key]` on a possibly-`None` Python value: `None[...]` (and indexing a
non-dict) raises `TypeError`; a missing key raises `KeyError`, as in
`message["data"]` / `message["id"]`. -/
def getItem (obj : Option Json) (key : List Char) : Except Err Json :=
  match obj with
  | none => .error .typeError
  | some (.jobj members) =>
    match lookupKV key members with
    | some v => .ok v
    | none => .error (.keyError key)
  | some _ => .error .typeError

/-! ### Decimal and hexadecimal digits -/

/-- The decimal digit character for `d < 10`. -/
def digitChar (d : Nat) : Char := Char.ofNat (48 + d)

/-- Decimal digits, structurally recursive on a fuel bound (any
`fuel > n` reaches the base case, since `n / 10` shrinks). -/
def natToCharsF : Nat → Nat → List Char
  | 0, _ => []
  | fuel + 1, n =>
    if n < 10 then [digitChar n]
    else natToCharsF fuel (n / 10) ++ [digitChar (n % 10)]

/-- Decimal representation of a natural number, as `repr` does for `int`. -/
def natToChars (n : Nat) : List Char := natToCharsF (n + 1) n

/-- `repr` of a Python `int` (used by `json.dumps` for integers). -/
def intToChars (n : Int) : List Char :=
  if n < 0 then '-' :: natToChars n.natAbs else natToChars n.natAbs

/-- Lowercase hexadecimal digit for `d < 16` (as `json.dumps` emits). -/
def hexDigitChar (d : Nat) : Char :=
  Char.ofNat (if d < 10 then 48 + d else 87 + d)

/-- Four lowercase hex digits of `n < 0x10000`. -/
def hex4 (n : Nat) : List Char :=
  [hexDigitChar (n / 4096 % 16), hexDigitChar (n / 256 % 16),
   hexDigitChar (n / 16 % 16), hexDigitChar (n % 16)]

/-- Value of one hex digit (`json.loads` accepts both cases). -/
def hexVal (c : Char) : Option Nat :=
  if 48 ≤ c.toNat ∧ c.toNat ≤ 57 then some (c.toNat - 48)
  else if 97 ≤ c.toNat ∧ c.toNat ≤ 102 then some (c.toNat - 87)
  else if 65 ≤ c.toNat ∧ c.toNat ≤ 70 then some (c.toNat - 55)
  else none

/-- Value of a `\uXXXX` escape's four hex digits. -/
def hex4Val (a b c d : Char) : Option Nat :=
  match hexVal a, hexVal b, hexVal c, hexVal d with
  | some va, some vb, some vc, some vd => some (((va * 16 + vb) * 16 + vc) * 16 + vd)
  | _, _, _, _ => none

/-! ### String escaping (`json.dumps` with its default `ensure_ascii=True`) -/

/-- A `\uXXXX` escape sequence. -/
def uEscape (n : Nat) : List Char := '\\' :: 'u' :: hex4 n

/-- Escape one character the way `json.dumps` (default `ensure_ascii=True`)
does: backslash, quote and the five named control characters get two-character
escapes, other characters outside `0x20..0x7e` get `\uXXXX` escapes, with a
surrogate pair for astral characters. -/
def escapeChar (c : Char) : List Char :=
  if c = '\\' then ['\\', '\\']
  else if c = '"' then ['\\', '"']
  else if c = '\x08' then ['\\', 'b']
  else if c = '\x0c' then ['\\', 'f']
  else if c = '\n' then ['\\', 'n']
  else if c = '\r' then ['\\', 'r']
  else if c = '\t' then ['\\', 't']
  else if 0x20 ≤ c.toNat ∧ c.toNat ≤ 0x7e then [c]
  else if c.toNat < 0x10000 then uEscape c.toNat
  else
    uEscape (0xd800 + (c.toNat - 0x10000) / 1024) ++
      uEscape (0xdc00 + (c.toNat - 0x10000) % 1024)

/-- A whole string serialized by `json.dumps`: quoted and escaped. -/
def escapeString (s : List Char) : List Char :=
  '"' :: ((s.map escapeChar).flatten ++ ['"'])

/-! ### `json.dumps` (default separators `", "` and `": "`) -/

mutual

/-- The text `json.dumps` produces for a value, with the module defaults this
program uses: `ensure_ascii=True` (so the output is pure ASCII) and the
separators `", "` and `": "`.  Object members are written in insertion
order. -/
def dumps : Json → List Char
  | .jnull => chars "null"
  | .jbool true => chars "true"
  | .jbool false => chars "false"
  | .jnum n => intToChars n
  | .jstr s => escapeString s
  | .jarr [] => ['[', ']']
  | .jarr (x :: xs) => '[' :: (dumps x ++ dumpsArrTail xs ++ [']'])
  | .jobj [] => ['\x7b', '\x7d']
  | .jobj (m :: ms) => '\x7b' :: (dumpsMember m ++ dumpsObjTail ms ++ ['\x7d'])

/-- `", "`-separated continuation of an array body. -/
def dumpsArrTail : List Json → List Char
  | [] => []
  | x :: xs => ',' :: ' ' :: (dumps x ++ dumpsArrTail xs)

/-- One object member, `"key": value`. -/
def dumpsMember : List Char × Json → List Char
  | (k, v) => escapeString k ++ (':' :: ' ' :: dumps v)

/-- `", "`-separated continuation of an object body. -/
def dumpsObjTail : List (List Char × Json) → List Char
  | [] => []
  | m :: ms => ',' :: ' ' :: (dumpsMember m ++ dumpsObjTail ms)

end

/-! ### `json.loads` -/

/-- JSON insignificant whitespace. -/
def isWsc (c : Char) : Bool := c = ' ' || c = '\t' || c = '\n' || c = '\r'

/-- Drop leading JSON whitespace. -/
def skipWs : List Char → List Char
  | [] => []
  | c :: cs => if isWsc c then skipWs cs else c :: cs

def isDigitc (c : Char) : Bool := 48 ≤ c.toNat && c.toNat ≤ 57

/-- Split a leading run of decimal digits. -/
def takeDigits : List Char → List Char × List Char
  | [] => ([], [])
  | c :: cs =>
    if isDigitc c then
      match takeDigits cs with
      | (ds, r) => (c :: ds, r)
    else ([], c :: cs)

/-- Numeric value of a digit run. -/
def digitsVal (ds : List Char) : Nat :=
  ds.foldl (fun a c => a * 10 + (c.toNat - 48)) 0

/-- The single-character escapes `json.loads` accepts. -/
def unescapeSimple : Char → Option Char
  | '"' => some '"'
  | '\\' => some '\\'
  | '/' => some '/'
  | 'b' => some '\x08'
  | 'f' => some '\x0c'
  | 'n' => some '\n'
  | 'r' => some '\r'
  | 't' => some '\t'
  | _ => none

/-- Parse the body of a JSON string after the opening quote, undoing escapes
and recombining surrogate pairs.  (Lone surrogate escapes are rejected: a
Lean `Char` cannot hold them, and `json.dumps` of a decoded value never
emits them.) -/
def parseStringRest : List Char → Option (List Char × List Char)
  | [] => none
  | '"' :: rest => some ([], rest)
  | '\\' :: 'u' :: a :: b :: c :: d :: rest =>
    (match hex4Val a b c d with
     | none => none
     | some n =>
       if 0xd800 ≤ n ∧ n < 0xdc00 then
         match rest with
         | '\\' :: 'u' :: a2 :: b2 :: c2 :: d2 :: rest2 =>
           (match hex4Val a2 b2 c2 d2 with
            | none => none
            | some m =>
              if 0xdc00 ≤ m ∧ m < 0xe000 then
                match parseStringRest rest2 with
                | none => none
                | some (s, r) =>
                  some (Char.ofNat (0x10000 + (n - 0xd800) * 1024 + (m - 0xdc00)) :: s, r)
              else none)
         | _ => none
       else if 0xdc00 ≤ n ∧ n < 0xe000 then none
       else
         match parseStringRest rest with
         | none => none
         | some (s, r) => some (Char.ofNat n :: s, r))
  | '\\' :: e :: rest =>
    (match unescapeSimple e with
     | none => none
     | some ch =>
       match parseStringRest rest with
       | none => none
       | some (s, r) => some (ch :: s, r))
  | c :: rest =>
    match parseStringRest rest with
    | none => none
    | some (s, r) => some (c :: s, r)

mutual

/-- Recursive-descent parser for one JSON value, on the grammar subset
`json.dumps` emits for the embedded `Json` type (no floats).  `fuel`
decreases on every recursive entry; callers pass `input.length + 1`,
which the round-trip theorems show is always enough. -/
def parseValue : Nat → List Char → Option (Json × List Char)
  | 0, _ => none
  | fuel + 1, cs =>
    match skipWs cs with
    | 'n' :: 'u' :: 'l' :: 'l' :: r => some (.jnull, r)
    | 't' :: 'r' :: 'u' :: 'e' :: r => some (.jbool true, r)
    | 'f' :: 'a' :: 'l' :: 's' :: 'e' :: r => some (.jbool false, r)
    | '"' :: r =>
      (match parseStringRest r with
       | some (s, r') => some (.jstr s, r')
       | none => none)
    | '[' :: r =>
      (match skipWs r with
       | [] => none
       | c :: r' =>
         if c = ']' then some (.jarr [], r')
         else
           match parseItems fuel (c :: r') with
           | some (xs, r'') => some (.jarr xs, r'')
           | none => none)
    | '\x7b' :: r =>
      (match skipWs r with
       | [] => none
       | c :: r' =>
         if c = '\x7d' then some (.jobj [], r')
         else
           match parseMembers fuel (c :: r') with
           | some (ms, r'') => some (.jobj ms, r'')
           | none => none)
    | '-' :: r =>
      (match takeDigits r with
       | ([], _) => none
       | (ds, r') => some (.jnum (-(digitsVal ds : Int)), r'))
    | c :: r =>
      if isDigitc c then
        match takeDigits (c :: r) with
        | (ds, r') => some (.jnum (digitsVal ds : Int), r')
      else none
    | [] => none

/-- One-or-more comma-separated array items, up to the closing bracket. -/
def parseItems : Nat → List Char → Option (List Json × List Char)
  | 0, _ => none
  | fuel + 1, cs =>
    match parseValue fuel cs with
    | none => none
    | some (v, r) =>
      match skipWs r with
      | ',' :: r' =>
        (match parseItems fuel r' with
         | some (vs, r'') => some (v :: vs, r'')
         | none => none)
      | ']' :: r' => some ([v], r')
      | _ => none

/-- One-or-more comma-separated object members, up to the closing brace. -/
def parseMembers : Nat → List Char → Option (List (List Char × Json) × List Char)
  | 0, _ => none
  | fuel + 1, cs =>
    match skipWs cs with
    | '"' :: r =>
      (match parseStringRest r with
       | none => none
       | some (k, r1) =>
         match skipWs r1 with
         | ':' :: r2 =>
           (match parseValue fuel r2 with
            | none => none
            | some (v, r3) =>
              match skipWs r3 with
              | ',' :: r4 =>
                (match parseMembers fuel r4 with
                 | some (ms, r5) => some ((k, v) :: ms, r5)
                 | none => none)
              | '\x7d' :: r4 => some ([(k, v)], r4)
              | _ => none)
         | _ => none)
    | _ => none

end

/-- `json.loads` on text: parse one value and require only whitespace after
it. -/
def loadsChars (cs : List Char) : Except Err Json :=
  match parseValue (cs.length + 1) cs with
  | some (j, r) => if skipWs r = [] then .ok j else .error .jsonDecodeError
  | none => .error .jsonDecodeError

/-! ### Round-trip: digits and numbers -/

/-- `true` when the list cannot extend a decimal digit run: empty or headed
by a non-digit.  Every remainder the serializer places after a number
(`,`, `]`, `\x7d`, or end of input) satisfies it. -/
def noDigitHead : List Char → Bool
  | [] => true
  | c :: _ => !isDigitc c

theorem digitChar_isDigit {d : Nat} (h : d < 10) : isDigitc (digitChar d) = true := by
  interval_cases d <;> decide

theorem digitChar_toNat {d : Nat} (h : d < 10) : (digitChar d).toNat = 48 + d := by
  interval_cases d <;> decide

theorem natToCharsF_all_digit :
    ∀ (fuel n : Nat), n < fuel → ∀ c ∈ natToCharsF fuel n, isDigitc c = true
  | 0, n, h => absurd h (Nat.not_lt_zero n)
  | fuel + 1, n, _h => by
    intro c hc
    rw [natToCharsF] at hc
    split at hc
    · rw [List.mem_singleton] at hc
      subst hc; exact digitChar_isDigit (by omega)
    · rw [List.mem_append] at hc
      rcases hc with h1 | h1
      · exact natToCharsF_all_digit fuel (n / 10) (by omega) c h1
      · rw [List.mem_singleton] at h1
        subst h1; exact digitChar_isDigit (Nat.mod_lt _ (by omega))

theorem natToChars_all_digit (n : Nat) : ∀ c ∈ natToChars n, isDigitc c = true :=
  natToCharsF_all_digit (n + 1) n (Nat.lt_succ_self n)

theorem natToChars_ne_nil (n : Nat) : natToChars n ≠ [] := by
  rw [natToChars, natToCharsF]; split <;> simp

theorem takeDigits_of_append (ds rest : List Char)
    (hds : ∀ c ∈ ds, isDigitc c = true) (hrest : noDigitHead rest = true) :
    takeDigits (ds ++ rest) = (ds, rest) := by
  induction ds with
  | nil =>
    cases rest with
    | nil => rfl
    | cons c t =>
      simp only [noDigitHead, Bool.not_eq_true'] at hrest
      simp [takeDigits, hrest]
  | cons c t ih =>
    have ih' := ih (fun x hx => hds x (List.mem_cons_of_mem c hx))
    simp [takeDigits, hds c (List.mem_cons_self c t), List.append_eq, ih']

theorem digitsVal_concat (ds : List Char) (c : Char) :
    digitsVal (ds ++ [c]) = digitsVal ds * 10 + (c.toNat - 48) := by
  simp [digitsVal, List.foldl_append]

theorem digitsVal_natToCharsF :
    ∀ (fuel n : Nat), n < fuel → digitsVal (natToCharsF fuel n) = n
  | 0, n, h => absurd h (Nat.not_lt_zero n)
  | fuel + 1, n, _h => by
    rw [natToCharsF]
    split
    · rename_i h
      simp [digitsVal, digitChar_toNat h]
    · rename_i h
      rw [digitsVal_concat, digitsVal_natToCharsF fuel (n / 10) (by omega),
        digitChar_toNat (Nat.mod_lt _ (by omega))]
      omega

theorem digitsVal_natToChars (n : Nat) : digitsVal (natToChars n) = n :=
  digitsVal_natToCharsF (n + 1) n (Nat.lt_succ_self n)

theorem digit_ne {c d : Char} (h : isDigitc c = true) (hd : isDigitc d = false) : c ≠ d :=
  fun e => by subst e; rw [h] at hd; cases hd

theorem digit_not_ws {c : Char} (h : isDigitc c = true) : isWsc c = false := by
  cases hw : isWsc c
  · rfl
  · exfalso
    simp only [isWsc, Bool.or_eq_true, decide_eq_true_eq] at hw
    rcases hw with ((h1 | h1) | h1) | h1 <;> (subst h1; simp [isDigitc] at h)

/-- A digit head sends `parseValue` into its number branch. -/
theorem parseValue_digit (f : Nat) (c : Char) (r : List Char) (h : isDigitc c = true) :
    parseValue (f + 1) (c :: r)
      = (match takeDigits (c :: r) with
         | (ds, r') => some (.jnum (digitsVal ds : Int), r')) := by
  have hws := digit_not_ws h
  have h1 : c ≠ 'n' := digit_ne h (by decide)
  have h2 : c ≠ 't' := digit_ne h (by decide)
  have h3 : c ≠ 'f' := digit_ne h (by decide)
  have h4 : c ≠ '"' := digit_ne h (by decide)
  have h5 : c ≠ '[' := digit_ne h (by decide)
  have h6 : c ≠ '\x7b' := digit_ne h (by decide)
  have h7 : c ≠ '-' := digit_ne h (by decide)
  simp only [parseValue]
  rw [show skipWs (c :: r) = c :: r from by simp [skipWs, hws]]
  simp [h1, h2, h3, h4, h5, h6, h7, h]

/-- A leading minus sends `parseValue` into its negative-number branch. -/
theorem parseValue_neg (f : Nat) (r : List Char) :
    parseValue (f + 1) ('-' :: r)
      = (match takeDigits r with
         | ([], _) => none
         | (ds, rr) => some (.jnum (-(digitsVal ds : Int)), rr)) := by
  simp only [parseValue]
  rw [show skipWs ('-' :: r) = '-' :: r from by simp [skipWs, isWsc]]
  rfl

/-- Parsing a serialized integer recovers it, whenever the remainder cannot
extend the digit run. -/
theorem rt_num (n : Int) (f : Nat) (rest : List Char) (hrest : noDigitHead rest = true) :
    parseValue (f + 1) (intToChars n ++ rest) = some (.jnum n, rest) := by
  by_cases hn : n < 0
  · have harg : intToChars n ++ rest = '-' :: (natToChars n.natAbs ++ rest) := by
      simp [intToChars, hn]
    rw [harg, parseValue_neg]
    rw [takeDigits_of_append _ _ (natToChars_all_digit _) hrest]
    obtain ⟨c, t, hct⟩ := List.exists_cons_of_ne_nil (natToChars_ne_nil n.natAbs)
    rw [hct]
    have hval : digitsVal (c :: t) = n.natAbs := by
      rw [← hct]; exact digitsVal_natToChars _
    simp only [hval]
    have : -(n.natAbs : Int) = n := by omega
    rw [this]
  · have harg : intToChars n ++ rest = natToChars n.natAbs ++ rest := by
      simp [intToChars, hn]
    rw [harg]
    obtain ⟨c, t, hct⟩ := List.exists_cons_of_ne_nil (natToChars_ne_nil n.natAbs)
    have hcd : isDigitc c = true := natToChars_all_digit _ c (by rw [hct]; simp)
    rw [hct, List.cons_append, parseValue_digit f c _ hcd, ← List.cons_append, ← hct,
      takeDigits_of_append _ _ (natToChars_all_digit _) hrest]
    have hval : (digitsVal (natToChars n.natAbs) : Int) = n := by
      rw [digitsVal_natToChars]; omega
    simp [hval]

/-! ### Round-trip: strings -/

theorem char_valid (c : Char) :
    c.toNat < 0xd800 ∨ (0xdfff < c.toNat ∧ c.toNat < 0x110000) := c.valid

theorem hexVal_hexDigitChar {d : Nat} (h : d < 16) : hexVal (hexDigitChar d) = some d := by
  interval_cases d <;> decide

theorem hex4Val_hex4 (n : Nat) (h : n < 0x10000) :
    hex4Val (hexDigitChar (n / 4096 % 16)) (hexDigitChar (n / 256 % 16))
      (hexDigitChar (n / 16 % 16)) (hexDigitChar (n % 16)) = some n := by
  rw [hex4Val, hexVal_hexDigitChar (by omega), hexVal_hexDigitChar (by omega),
    hexVal_hexDigitChar (by omega), hexVal_hexDigitChar (by omega)]
  simp only [Option.some.injEq]
  omega

/-- Parsing a single `\uXXXX` escape of a non-surrogate code point yields that
character back. -/
theorem parseStringRest_uEscape (c : Char) (t : List Char)
    (h9 : c.toNat < 0x10000)
    (hs1 : ¬(0xd800 ≤ c.toNat ∧ c.toNat < 0xdc00))
    (hs2 : ¬(0xdc00 ≤ c.toNat ∧ c.toNat < 0xe000)) :
    parseStringRest (uEscape c.toNat ++ t)
      = (match parseStringRest t with
         | none => none
         | some (s, r) => some (c :: s, r)) := by
  have harg : uEscape c.toNat ++ t
      = '\\' :: 'u' :: hexDigitChar (c.toNat / 4096 % 16) :: hexDigitChar (c.toNat / 256 % 16)
        :: hexDigitChar (c.toNat / 16 % 16) :: hexDigitChar (c.toNat % 16) :: t := by
    simp [uEscape, hex4]
  rw [harg, parseStringRest.eq_def]
  simp only [hex4Val_hex4 _ h9]
  rw [if_neg hs1, if_neg hs2]
  simp [Char.ofNat_toNat]

/-- Parsing the surrogate-pair escape of an astral character recombines it. -/
theorem parseStringRest_surrogatePair (c : Char) (t : List Char) (h9 : ¬c.toNat < 0x10000) :
    parseStringRest (uEscape (0xd800 + (c.toNat - 0x10000) / 1024) ++
        (uEscape (0xdc00 + (c.toNat - 0x10000) % 1024) ++ t))
      = (match parseStringRest t with
         | none => none
         | some (s, r) => some (c :: s, r)) := by
  have hv := char_valid c
  have harg : uEscape (0xd800 + (c.toNat - 0x10000) / 1024) ++
        (uEscape (0xdc00 + (c.toNat - 0x10000) % 1024) ++ t)
      = '\\' :: 'u'
        :: hexDigitChar ((0xd800 + (c.toNat - 0x10000) / 1024) / 4096 % 16)
        :: hexDigitChar ((0xd800 + (c.toNat - 0x10000) / 1024) / 256 % 16)
        :: hexDigitChar ((0xd800 + (c.toNat - 0x10000) / 1024) / 16 % 16)
        :: hexDigitChar ((0xd800 + (c.toNat - 0x10000) / 1024) % 16)
        :: '\\' :: 'u'
        :: hexDigitChar ((0xdc00 + (c.toNat - 0x10000) % 1024) / 4096 % 16)
        :: hexDigitChar ((0xdc00 + (c.toNat - 0x10000) % 1024) / 256 % 16)
        :: hexDigitChar ((0xdc00 + (c.toNat - 0x10000) % 1024) / 16 % 16)
        :: hexDigitChar ((0xdc00 + (c.toNat - 0x10000) % 1024) % 16)
        :: t := by
    simp [uEscape, hex4]
  rw [harg, parseStringRest.eq_def]
  simp only [hex4Val_hex4 _ (show 0xd800 + (c.toNat - 0x10000) / 1024 < 0x10000 by omega)]
  rw [if_pos (by constructor <;> omega)]
  simp only [hex4Val_hex4 _ (show 0xdc00 + (c.toNat - 0x10000) % 1024 < 0x10000 by omega)]
  rw [if_pos (by constructor <;> omega)]
  have hcomb : 0x10000 + (0xd800 + (c.toNat - 0x10000) / 1024 - 0xd800) * 1024 +
      (0xdc00 + (c.toNat - 0x10000) % 1024 - 0xdc00) = c.toNat := by omega
  rw [hcomb]
  simp [Char.ofNat_toNat]

/-- Parsing one escaped character undoes `escapeChar`. -/
theorem parseStringRest_escapeChar (c : Char) (t : List Char) :
    parseStringRest (escapeChar c ++ t)
      = (match parseStringRest t with
         | none => none
         | some (s, r) => some (c :: s, r)) := by
  by_cases h1 : c = '\\'
  · subst h1; rfl
  by_cases h2 : c = '"'
  · subst h2; rfl
  by_cases h3 : c = '\x08'
  · subst h3; rfl
  by_cases h4 : c = '\x0c'
  · subst h4; rfl
  by_cases h5 : c = '\n'
  · subst h5; rfl
  by_cases h6 : c = '\r'
  · subst h6; rfl
  by_cases h7 : c = '\t'
  · subst h7; rfl
  by_cases h8 : 0x20 ≤ c.toNat ∧ c.toNat ≤ 0x7e
  · have harg : escapeChar c ++ t = c :: t := by
      simp [escapeChar, h1, h2, h3, h4, h5, h6, h7, h8]
    rw [harg, parseStringRest.eq_def]
    simp [h1, h2]
  by_cases h9 : c.toNat < 0x10000
  · have harg : escapeChar c ++ t = uEscape c.toNat ++ t := by
      simp [escapeChar, h1, h2, h3, h4, h5, h6, h7, h8, h9]
    have hv := char_valid c
    rw [harg, parseStringRest_uEscape c t h9 (by omega) (by omega)]
  · have harg : escapeChar c ++ t
        = uEscape (0xd800 + (c.toNat - 0x10000) / 1024) ++
            (uEscape (0xdc00 + (c.toNat - 0x10000) % 1024) ++ t) := by
      simp [escapeChar, h1, h2, h3, h4, h5, h6, h7, h8, h9]
    rw [harg, parseStringRest_surrogatePair c t h9]

/-- The string body codec round-trip: parsing an escaped run stops exactly at
the closing quote and recovers the original characters. -/
theorem rt_stringBody (s : List Char) (rest : List Char) :
    parseStringRest ((s.map escapeChar).flatten ++ '"' :: rest) = some (s, rest) := by
  induction s with
  | nil => rfl
  | cons c cs ih =>
    rw [List.map_cons, List.flatten_cons, List.append_assoc, parseStringRest_escapeChar, ih]

/-! ### Round-trip: whole values -/

/-- Serialized output starts with a character that is not whitespace and
closes neither an array nor an object. -/
theorem dumps_head (j : Json) :
    ∃ c t, dumps j = c :: t ∧ isWsc c = false ∧ c ≠ ']' ∧ c ≠ '\x7d' := by
  cases j with
  | jnull => refine ⟨'n', _, rfl, ?_, ?_, ?_⟩ <;> decide
  | jbool b =>
    cases b
    · refine ⟨'f', _, rfl, ?_, ?_, ?_⟩ <;> decide
    · refine ⟨'t', _, rfl, ?_, ?_, ?_⟩ <;> decide
  | jnum n =>
    by_cases hn : n < 0
    · refine ⟨'-', natToChars n.natAbs, ?_, by decide, by decide, by decide⟩
      simp [dumps, intToChars, hn]
    · obtain ⟨c, t, hct⟩ := List.exists_cons_of_ne_nil (natToChars_ne_nil n.natAbs)
      have hcd : isDigitc c = true := natToChars_all_digit _ c (by rw [hct]; simp)
      refine ⟨c, t, ?_, digit_not_ws hcd, digit_ne hcd (by decide), digit_ne hcd (by decide)⟩
      simp [dumps, intToChars, hn, hct]
  | jstr s => refine ⟨'"', _, rfl, ?_, ?_, ?_⟩ <;> decide
  | jarr xs =>
    cases xs
    · refine ⟨'[', _, rfl, ?_, ?_, ?_⟩ <;> decide
    · refine ⟨'[', _, rfl, ?_, ?_, ?_⟩ <;> decide
  | jobj ms =>
    cases ms
    · refine ⟨'\x7b', _, rfl, ?_, ?_, ?_⟩ <;> decide
    · refine ⟨'\x7b', _, rfl, ?_, ?_, ?_⟩ <;> decide

theorem dumps_ne_nil (j : Json) : dumps j ≠ [] := by
  obtain ⟨c, t, hct, _⟩ := dumps_head j
  simp [hct]

theorem skipWs_dumps (j : Json) (x : List Char) :
    skipWs (dumps j ++ x) = dumps j ++ x := by
  obtain ⟨c, t, hct, hws, _⟩ := dumps_head j
  rw [hct, List.cons_append]
  simp [skipWs, hws]

theorem skipWs_cons_ws (cs : List Char) : skipWs (' ' :: cs) = skipWs cs := rfl

theorem parseValue_ws (f : Nat) (cs : List Char) :
    parseValue f (' ' :: cs) = parseValue f cs := by
  cases f with
  | zero => rfl
  | succ g =>
    simp only [parseValue]
    rw [skipWs_cons_ws]

theorem parseItems_ws (f : Nat) (cs : List Char) :
    parseItems f (' ' :: cs) = parseItems f cs := by
  cases f with
  | zero => rfl
  | succ g =>
    simp only [parseItems]
    rw [parseValue_ws]

theorem parseMembers_ws (f : Nat) (cs : List Char) :
    parseMembers f (' ' :: cs) = parseMembers f cs := by
  cases f with
  | zero => rfl
  | succ g =>
    simp only [parseMembers]
    rw [skipWs_cons_ws]

/-- An opening bracket sends `parseValue` into its array branch. -/
theorem parseValue_arr (f : Nat) (r : List Char) :
    parseValue (f + 1) ('[' :: r)
      = (match skipWs r with
         | [] => none
         | c :: rr =>
           if c = ']' then some (.jarr [], rr)
           else
             match parseItems f (c :: rr) with
             | some (xs, rr2) => some (.jarr xs, rr2)
             | none => none) := by
  simp only [parseValue]
  rw [show skipWs ('[' :: r) = '[' :: r from by simp [skipWs, isWsc]]
  rfl

/-- The array branch, with the element list already destructured. -/
theorem parseValue_arr_cons (f : Nat) (r : List Char) (c : Char) (rr : List Char)
    (hsk : skipWs r = c :: rr) :
    parseValue (f + 1) ('[' :: r)
      = (if c = ']' then some (.jarr [], rr)
         else
           match parseItems f (c :: rr) with
           | some (xs, rr2) => some (.jarr xs, rr2)
           | none => none) := by
  rw [parseValue_arr, hsk]

/-- An opening brace sends `parseValue` into its object branch. -/
theorem parseValue_obj (f : Nat) (r : List Char) :
    parseValue (f + 1) ('\x7b' :: r)
      = (match skipWs r with
         | [] => none
         | c :: rr =>
           if c = '\x7d' then some (.jobj [], rr)
           else
             match parseMembers f (c :: rr) with
             | some (ms, rr2) => some (.jobj ms, rr2)
             | none => none) := by
  simp only [parseValue]
  rw [show skipWs ('\x7b' :: r) = '\x7b' :: r from by simp [skipWs, isWsc]]
  rfl

/-- The object branch, with the member list already destructured. -/
theorem parseValue_obj_cons (f : Nat) (r : List Char) (c : Char) (rr : List Char)
    (hsk : skipWs r = c :: rr) :
    parseValue (f + 1) ('\x7b' :: r)
      = (if c = '\x7d' then some (.jobj [], rr)
         else
           match parseMembers f (c :: rr) with
           | some (ms, rr2) => some (.jobj ms, rr2)
           | none => none) := by
  rw [parseValue_obj, hsk]

/-- An opening quote sends `parseValue` into its string branch. -/
theorem parseValue_str (f : Nat) (r : List Char) :
    parseValue (f + 1) ('"' :: r)
      = (match parseStringRest r with
         | some (s, rr) => some (.jstr s, rr)
         | none => none) := by
  simp only [parseValue]
  rw [show skipWs ('"' :: r) = '"' :: r from by simp [skipWs, isWsc]]
  rfl

end Broomrocket

namespace Broomrocket

mutual

/-- Parsing serialized output recovers the value, for any fuel above the
output length and any remainder that cannot extend a digit run. -/
theorem rt_val : ∀ (j : Json) (fuel : Nat) (rest : List Char),
    (dumps j).length < fuel → noDigitHead rest = true →
    parseValue fuel (dumps j ++ rest) = some (j, rest)
  | .jnull, fuel, rest, hf, _ => by
    cases fuel with
    | zero => simp [dumps, chars] at hf
    | succ f => rfl
  | .jbool b, fuel, rest, hf, _ => by
    cases fuel with
    | zero => cases b <;> simp [dumps, chars] at hf
    | succ f => cases b <;> rfl
  | .jnum n, fuel, rest, hf, hr => by
    cases fuel with
    | zero => exact absurd hf (Nat.not_lt_zero _)
    | succ f => exact rt_num n f rest hr
  | .jstr s, fuel, rest, hf, _ => by
    cases fuel with
    | zero => exact absurd hf (Nat.not_lt_zero _)
    | succ f =>
      have harg : dumps (.jstr s) ++ rest
          = '"' :: ((s.map escapeChar).flatten ++ '"' :: rest) := by
        simp [dumps, escapeString]
      rw [harg, parseValue_str, rt_stringBody]
  | .jarr [], fuel, rest, hf, _ => by
    cases fuel with
    | zero => simp [dumps] at hf
    | succ f => rfl
  | .jarr (x :: xs), fuel, rest, hf, _ => by
    cases fuel with
    | zero => exact absurd hf (Nat.not_lt_zero _)
    | succ f =>
      have harg : dumps (.jarr (x :: xs)) ++ rest
          = '[' :: (dumps x ++ (dumpsArrTail xs ++ ']' :: rest)) := by
        simp [dumps]
      have hfi : (dumps x ++ dumpsArrTail xs).length + 1 < f := by
        simp only [dumps] at hf
        simp only [List.length_cons, List.length_append, List.length_singleton] at hf
        simp only [List.length_append]
        omega
      obtain ⟨c, t, hct, hcw, hcb, _⟩ := dumps_head x
      have hsk : skipWs (dumps x ++ (dumpsArrTail xs ++ ']' :: rest))
          = c :: (t ++ (dumpsArrTail xs ++ ']' :: rest)) := by
        rw [skipWs_dumps x _, hct, List.cons_append]
      rw [harg, parseValue_arr_cons f _ c _ hsk, if_neg hcb]
      have key := rt_items x xs f rest hfi
      rw [hct, List.cons_append] at key
      rw [key]
  | .jobj [], fuel, rest, hf, _ => by
    cases fuel with
    | zero => simp [dumps] at hf
    | succ f => rfl
  | .jobj (m :: ms), fuel, rest, hf, _ => by
    cases fuel with
    | zero => exact absurd hf (Nat.not_lt_zero _)
    | succ f =>
      have harg : dumps (.jobj (m :: ms)) ++ rest
          = '\x7b' :: (dumpsMember m ++ (dumpsObjTail ms ++ '\x7d' :: rest)) := by
        simp [dumps]
      have hfi : (dumpsMember m ++ dumpsObjTail ms).length + 1 < f := by
        simp only [dumps] at hf
        simp only [List.length_cons, List.length_append, List.length_singleton] at hf
        simp only [List.length_append]
        omega
      obtain ⟨k, v⟩ := m
      have hmem : dumpsMember (k, v) ++ (dumpsObjTail ms ++ '\x7d' :: rest)
          = '"' :: ((k.map escapeChar).flatten
              ++ ('"' :: (':' :: ' ' :: dumps v ++ (dumpsObjTail ms ++ '\x7d' :: rest)))) := by
        simp [dumpsMember, escapeString]
      have hsk : skipWs (dumpsMember (k, v) ++ (dumpsObjTail ms ++ '\x7d' :: rest))
          = '"' :: ((k.map escapeChar).flatten
              ++ ('"' :: (':' :: ' ' :: dumps v ++ (dumpsObjTail ms ++ '\x7d' :: rest)))) := by
        rw [hmem]
        simp [skipWs, isWsc]
      rw [harg, parseValue_obj_cons f _ '"' _ hsk, if_neg (by decide)]
      have key := rt_members (k, v) ms f rest hfi
      rw [hmem] at key
      rw [key]

/-- Parsing the serialized items of a nonempty array consumes them up to and
including the closing bracket. -/
theorem rt_items : ∀ (x : Json) (xs : List Json) (fuel : Nat) (rest : List Char),
    (dumps x ++ dumpsArrTail xs).length + 1 < fuel →
    parseItems fuel (dumps x ++ (dumpsArrTail xs ++ ']' :: rest)) = some (x :: xs, rest)
  | x, [], fuel, rest, hf => by
    cases fuel with
    | zero => omega
    | succ f =>
      simp only [parseItems]
      have harg : dumps x ++ (dumpsArrTail [] ++ ']' :: rest) = dumps x ++ ']' :: rest := by
        simp [dumpsArrTail]
      have hfx : (dumps x).length < f := by
        simp only [dumpsArrTail, List.length_append, List.length_nil] at hf
        omega
      rw [harg, rt_val x f (']' :: rest) hfx rfl]
      rfl
  | x, y :: ys, fuel, rest, hf => by
    cases fuel with
    | zero => omega
    | succ f =>
      simp only [parseItems]
      have harg : dumps x ++ (dumpsArrTail (y :: ys) ++ ']' :: rest)
          = dumps x ++ (',' :: ' ' :: (dumps y ++ (dumpsArrTail ys ++ ']' :: rest))) := by
        simp [dumpsArrTail]
      have hlen : (dumps y).length ≥ 1 := by
        obtain ⟨c, t, hct, _⟩ := dumps_head y
        simp [hct]
      have hfx : (dumps x).length < f := by
        simp only [dumpsArrTail, List.length_append, List.length_cons] at hf
        omega
      have hfy : (dumps y ++ dumpsArrTail ys).length + 1 < f := by
        simp only [dumpsArrTail, List.length_append, List.length_cons] at hf
        simp only [List.length_append]
        omega
      rw [harg, rt_val x f (',' :: ' ' :: (dumps y ++ (dumpsArrTail ys ++ ']' :: rest))) hfx rfl]
      have hsk : skipWs (',' :: ' ' :: (dumps y ++ (dumpsArrTail ys ++ ']' :: rest)))
          = ',' :: ' ' :: (dumps y ++ (dumpsArrTail ys ++ ']' :: rest)) := by
        simp [skipWs, isWsc]
      have key := rt_items y ys f rest hfy
      simp only [hsk, parseItems_ws, key]

/-- Parsing the serialized members of a nonempty object consumes them up to
and including the closing brace. -/
theorem rt_members : ∀ (m : List Char × Json) (ms : List (List Char × Json))
    (fuel : Nat) (rest : List Char),
    (dumpsMember m ++ dumpsObjTail ms).length + 1 < fuel →
    parseMembers fuel (dumpsMember m ++ (dumpsObjTail ms ++ '\x7d' :: rest))
      = some (m :: ms, rest)
  | (k, v), [], fuel, rest, hf => by
    cases fuel with
    | zero => omega
    | succ f =>
      simp only [parseMembers]
      have harg : dumpsMember (k, v) ++ (dumpsObjTail [] ++ '\x7d' :: rest)
          = '"' :: ((k.map escapeChar).flatten
              ++ '"' :: (':' :: (' ' :: (dumps v ++ '\x7d' :: rest)))) := by
        simp [dumpsMember, dumpsObjTail, escapeString]
      have hfv : (dumps v).length < f := by
        simp only [dumpsMember, dumpsObjTail, escapeString, List.length_append,
          List.length_cons, List.length_nil] at hf
        omega
      rw [harg]
      have hsk : skipWs ('"' :: ((k.map escapeChar).flatten
              ++ '"' :: (':' :: (' ' :: (dumps v ++ '\x7d' :: rest)))))
          = '"' :: ((k.map escapeChar).flatten
              ++ '"' :: (':' :: (' ' :: (dumps v ++ '\x7d' :: rest)))) := by
        simp [skipWs, isWsc]
      rw [hsk]
      simp only [rt_stringBody]
      have hsk2 : skipWs (':' :: (' ' :: (dumps v ++ '\x7d' :: rest)))
          = ':' :: (' ' :: (dumps v ++ '\x7d' :: rest)) := by
        simp [skipWs, isWsc]
      simp only [hsk2]
      rw [show parseValue f (' ' :: (dumps v ++ '\x7d' :: rest))
          = parseValue f (dumps v ++ '\x7d' :: rest) from parseValue_ws f _]
      rw [rt_val v f ('\x7d' :: rest) hfv rfl]
      rfl
  | (k, v), m2 :: ms, fuel, rest, hf => by
    cases fuel with
    | zero => omega
    | succ f =>
      simp only [parseMembers]
      have harg : dumpsMember (k, v) ++ (dumpsObjTail (m2 :: ms) ++ '\x7d' :: rest)
          = '"' :: ((k.map escapeChar).flatten
              ++ '"' :: (':' :: (' ' :: (dumps v
                ++ (',' :: ' ' :: (dumpsMember m2 ++ (dumpsObjTail ms ++ '\x7d' :: rest))))))) := by
        simp [dumpsMember, dumpsObjTail, escapeString]
      have hmemlen : (dumpsMember m2).length ≥ 1 := by
        obtain ⟨k2, v2⟩ := m2
        simp [dumpsMember, escapeString]
      have hfv : (dumps v).length < f := by
        simp only [dumpsMember, dumpsObjTail, escapeString, List.length_append,
          List.length_cons] at hf
        omega
      have hfm : (dumpsMember m2 ++ dumpsObjTail ms).length + 1 < f := by
        simp only [dumpsMember, dumpsObjTail, escapeString, List.length_append,
          List.length_cons] at hf
        simp only [List.length_append]
        omega
      rw [harg]
      have hsk : skipWs ('"' :: ((k.map escapeChar).flatten
              ++ '"' :: (':' :: (' ' :: (dumps v
                ++ (',' :: ' ' :: (dumpsMember m2 ++ (dumpsObjTail ms ++ '\x7d' :: rest))))))))
          = '"' :: ((k.map escapeChar).flatten
              ++ '"' :: (':' :: (' ' :: (dumps v
                ++ (',' :: ' ' :: (dumpsMember m2 ++ (dumpsObjTail ms ++ '\x7d' :: rest))))))) := by
        simp [skipWs, isWsc]
      rw [hsk]
      simp only [rt_stringBody]
      have hsk2 : skipWs (':' :: (' ' :: (dumps v
            ++ (',' :: ' ' :: (dumpsMember m2 ++ (dumpsObjTail ms ++ '\x7d' :: rest))))))
          = ':' :: (' ' :: (dumps v
            ++ (',' :: ' ' :: (dumpsMember m2 ++ (dumpsObjTail ms ++ '\x7d' :: rest))))) := by
        simp [skipWs, isWsc]
      simp only [hsk2]
      rw [show parseValue f (' ' :: (dumps v
            ++ (',' :: ' ' :: (dumpsMember m2 ++ (dumpsObjTail ms ++ '\x7d' :: rest)))))
          = parseValue f (dumps v
            ++ (',' :: ' ' :: (dumpsMember m2 ++ (dumpsObjTail ms ++ '\x7d' :: rest))))
        from parseValue_ws f _]
      rw [rt_val v f (',' :: ' ' :: (dumpsMember m2 ++ (dumpsObjTail ms ++ '\x7d' :: rest)))
        hfv rfl]
      have hsk3 : skipWs (',' :: ' ' :: (dumpsMember m2 ++ (dumpsObjTail ms ++ '\x7d' :: rest)))
          = ',' :: ' ' :: (dumpsMember m2 ++ (dumpsObjTail ms ++ '\x7d' :: rest)) := by
        simp [skipWs, isWsc]
      have key := rt_members m2 ms f rest hfm
      simp only [hsk3, parseMembers_ws, key]

end

end Broomrocket

namespace Broomrocket

/-- `json.loads` inverts `json.dumps` on every embedded JSON value. -/
theorem loads_dumps (j : Json) : loadsChars (dumps j) = .ok j := by
  rw [loadsChars]
  have h := rt_val j ((dumps j).length + 1) [] (by omega) rfl
  rw [List.append_nil] at h
  rw [h]
  rfl

/-! ### UTF-8 (`str.encode()` / `bytes.decode()`) -/

/-- UTF-8 encoding of one scalar value, as `str.encode()` produces. -/
def utf8EncodeChar (c : Char) : List Nat :=
  let n := c.toNat
  if n < 0x80 then [n]
  else if n < 0x800 then [0xc0 + n / 64, 0x80 + n % 64]
  else if n < 0x10000 then [0xe0 + n / 4096, 0x80 + n / 64 % 64, 0x80 + n % 64]
  else [0xf0 + n / 262144, 0x80 + n / 4096 % 64, 0x80 + n / 64 % 64, 0x80 + n % 64]

/-- UTF-8 encoding of a string. -/
def utf8Encode (s : List Char) : List Nat := (s.map utf8EncodeChar).flatten

/-- A UTF-8 continuation byte. -/
def isCont (b : Nat) : Bool := 0x80 ≤ b && b < 0xc0

/-- Rejects overlong three-byte forms and surrogates, as strict decoders do. -/
def utf8Valid3 (b b2 : Nat) : Bool :=
  !(b == 0xe0 && b2 < 0xa0) && !(b == 0xed && 0xa0 ≤ b2)

/-- Rejects overlong four-byte forms and code points above U+10FFFF. -/
def utf8Valid4 (b b2 : Nat) : Bool :=
  !(b == 0xf0 && b2 < 0x90) && !(b == 0xf4 && 0x90 ≤ b2)

/-- Strict UTF-8 decoding, as `bytes.decode()` / `json.loads` perform on the
received frame body (continuation bytes checked, overlong forms and
surrogates rejected).  The fuel argument only bounds the recursion; every
step consumes at least one byte, so `utf8Decode` below passes the input
length and is total. -/
def utf8DecodeF : Nat → List Nat → Option (List Char)
  | _, [] => some []
  | 0, _ :: _ => none
  | fuel + 1, b :: bs =>
    if b < 0x80 then
      (utf8DecodeF fuel bs).map (fun cs => Char.ofNat b :: cs)
    else if b < 0xc2 then none
    else if b < 0xe0 then
      match bs with
      | b2 :: bs2 =>
        if isCont b2 then
          (utf8DecodeF fuel bs2).map (fun cs => Char.ofNat ((b - 0xc0) * 64 + (b2 - 0x80)) :: cs)
        else none
      | [] => none
    else if b < 0xf0 then
      match bs with
      | b2 :: b3 :: bs3 =>
        if isCont b2 && isCont b3 && utf8Valid3 b b2 then
          (utf8DecodeF fuel bs3).map
            (fun cs => Char.ofNat ((b - 0xe0) * 4096 + (b2 - 0x80) * 64 + (b3 - 0x80)) :: cs)
        else none
      | _ => none
    else if b < 0xf5 then
      match bs with
      | b2 :: b3 :: b4 :: bs4 =>
        if isCont b2 && isCont b3 && isCont b4 && utf8Valid4 b b2 then
          (utf8DecodeF fuel bs4).map
            (fun cs => Char.ofNat ((b - 0xf0) * 262144 + (b2 - 0x80) * 4096
              + (b3 - 0x80) * 64 + (b4 - 0x80)) :: cs)
        else none
      | _ => none
    else none

/-- `bytes.decode()`: strict UTF-8 decoding of a byte string. -/
def utf8Decode (bs : List Nat) : Option (List Char) := utf8DecodeF bs.length bs

theorem utf8Encode_nil : utf8Encode [] = [] := rfl

theorem utf8Encode_cons (c : Char) (cs : List Char) :
    utf8Encode (c :: cs) = utf8EncodeChar c ++ utf8Encode cs := by
  simp [utf8Encode]

/-- On ASCII text the UTF-8 bytes are exactly the code points. -/
theorem utf8Encode_ascii (s : List Char) (h : ∀ c ∈ s, c.toNat < 0x80) :
    utf8Encode s = s.map Char.toNat := by
  induction s with
  | nil => rfl
  | cons c cs ih =>
    rw [utf8Encode_cons, ih (fun x hx => h x (List.mem_cons_of_mem c hx)), List.map_cons]
    have hc := h c (List.mem_cons_self c cs)
    simp [utf8EncodeChar, hc]

/-- Decoding ASCII bytes yields their code points, at any sufficient fuel. -/
theorem utf8DecodeF_ascii (f : Nat) (bs : List Nat)
    (h : ∀ b ∈ bs, b < 0x80) (hf : bs.length ≤ f) :
    utf8DecodeF f bs = some (bs.map Char.ofNat) := by
  induction bs generalizing f with
  | nil => cases f <;> rfl
  | cons b t ih =>
    cases f with
    | zero => simp at hf
    | succ g =>
      rw [utf8DecodeF.eq_def]
      simp only [if_pos (h b (List.mem_cons_self b t))]
      rw [ih g (fun x hx => h x (List.mem_cons_of_mem b hx)) (by simp at hf; omega)]
      rfl

/-- Decoding inverts encoding on ASCII text. -/
theorem utf8Decode_encode_ascii (s : List Char) (h : ∀ c ∈ s, c.toNat < 0x80) :
    utf8Decode (utf8Encode s) = some s := by
  rw [utf8Decode, utf8Encode_ascii s h]
  rw [utf8DecodeF_ascii _ _ (by intro b hb; rw [List.mem_map] at hb
                                obtain ⟨c, hc, hbc⟩ := hb
                                subst hbc; exact h c hc) le_rfl]
  rw [List.map_map]
  have : (Char.ofNat ∘ Char.toNat) = id := by
    funext c; simp [Function.comp, Char.ofNat_toNat]
  rw [this, List.map_id]

theorem isDigitc_ascii {c : Char} (h : isDigitc c = true) : c.toNat < 0x80 := by
  simp only [isDigitc, Bool.and_eq_true, decide_eq_true_eq] at h
  omega

theorem hexDigitChar_ascii (d : Nat) (h : d < 16) : (hexDigitChar d).toNat < 0x80 := by
  interval_cases d <;> decide

theorem mem_pair {x a b : Char} (h : x ∈ [a, b]) : x = a ∨ x = b := by
  rw [List.mem_cons, List.mem_singleton] at h; exact h

theorem uEscape_ascii (n : Nat) : ∀ x ∈ uEscape n, x.toNat < 0x80 := by
  intro x hx
  rw [uEscape, hex4] at hx
  rw [List.mem_cons, List.mem_cons, List.mem_cons, List.mem_cons, List.mem_cons,
    List.mem_singleton] at hx
  rcases hx with h | h | h | h | h | h
  · subst h; decide
  · subst h; decide
  · subst h; exact hexDigitChar_ascii _ (Nat.mod_lt _ (by omega))
  · subst h; exact hexDigitChar_ascii _ (Nat.mod_lt _ (by omega))
  · subst h; exact hexDigitChar_ascii _ (Nat.mod_lt _ (by omega))
  · subst h; exact hexDigitChar_ascii _ (Nat.mod_lt _ (by omega))

theorem escapeChar_ascii (c : Char) : ∀ x ∈ escapeChar c, x.toNat < 0x80 := by
  intro x hx
  rw [escapeChar] at hx
  split at hx
  · rcases mem_pair hx with h | h <;> (subst h; decide)
  split at hx
  · rcases mem_pair hx with h | h <;> (subst h; decide)
  split at hx
  · rcases mem_pair hx with h | h <;> (subst h; decide)
  split at hx
  · rcases mem_pair hx with h | h <;> (subst h; decide)
  split at hx
  · rcases mem_pair hx with h | h <;> (subst h; decide)
  split at hx
  · rcases mem_pair hx with h | h <;> (subst h; decide)
  split at hx
  · rcases mem_pair hx with h | h <;> (subst h; decide)
  split at hx
  · rename_i h8
    rw [List.mem_singleton] at hx
    subst hx
    omega
  split at hx
  · exact uEscape_ascii _ x hx
  · rw [List.mem_append] at hx
    rcases hx with h | h
    · exact uEscape_ascii _ x h
    · exact uEscape_ascii _ x h

theorem escapeString_ascii (s : List Char) : ∀ x ∈ escapeString s, x.toNat < 0x80 := by
  intro x hx
  rw [escapeString, List.mem_cons] at hx
  rcases hx with h | hx
  · subst h; decide
  · rw [List.mem_append] at hx
    rcases hx with hx | hx
    · rw [List.mem_flatten] at hx
      obtain ⟨l, hl, hxl⟩ := hx
      rw [List.mem_map] at hl
      obtain ⟨c2, _, hcl⟩ := hl
      subst hcl
      exact escapeChar_ascii c2 x hxl
    · rw [List.mem_singleton] at hx; subst hx; decide

theorem intToChars_ascii (n : Int) : ∀ x ∈ intToChars n, x.toNat < 0x80 := by
  intro x hx
  rw [intToChars] at hx
  split at hx
  · rw [List.mem_cons] at hx
    rcases hx with h | h
    · subst h; decide
    · exact isDigitc_ascii (natToChars_all_digit _ x h)
  · exact isDigitc_ascii (natToChars_all_digit _ x hx)

mutual

/-- With `ensure_ascii=True`, every serialized character is ASCII. -/
theorem dumps_ascii : ∀ (j : Json), ∀ x ∈ dumps j, x.toNat < 0x80
  | .jnull => by intro x hx; rw [show dumps .jnull = chars "null" from rfl] at hx; revert x hx; decide
  | .jbool true => by
    intro x hx; rw [show dumps (.jbool true) = chars "true" from rfl] at hx
    revert x hx; decide
  | .jbool false => by
    intro x hx; rw [show dumps (.jbool false) = chars "false" from rfl] at hx
    revert x hx; decide
  | .jnum n => by
    intro x hx; rw [show dumps (.jnum n) = intToChars n from rfl] at hx
    exact intToChars_ascii n x hx
  | .jstr s => by
    intro x hx; rw [show dumps (.jstr s) = escapeString s from rfl] at hx
    exact escapeString_ascii s x hx
  | .jarr [] => by intro x hx; rw [show dumps (.jarr []) = ['[', ']'] from rfl] at hx
                   revert x hx; decide
  | .jarr (y :: ys) => by
    intro x hx
    rw [show dumps (.jarr (y :: ys)) = '[' :: (dumps y ++ dumpsArrTail ys ++ [']']) from rfl,
      List.mem_cons] at hx
    rcases hx with h | h
    · subst h; decide
    · rw [List.mem_append, List.mem_append] at h
      rcases h with (h | h) | h
      · exact dumps_ascii y x h
      · exact dumpsArrTail_ascii ys x h
      · rw [List.mem_singleton] at h; subst h; decide
  | .jobj [] => by intro x hx; rw [show dumps (.jobj []) = ['\x7b', '\x7d'] from rfl] at hx
                   revert x hx; decide
  | .jobj (m :: ms) => by
    intro x hx
    rw [show dumps (.jobj (m :: ms)) = '\x7b' :: (dumpsMember m ++ dumpsObjTail ms ++ ['\x7d'])
      from rfl, List.mem_cons] at hx
    rcases hx with h | h
    · subst h; decide
    · rw [List.mem_append, List.mem_append] at h
      rcases h with (h | h) | h
      · exact dumpsMember_ascii m x h
      · exact dumpsObjTail_ascii ms x h
      · rw [List.mem_singleton] at h; subst h; decide

theorem dumpsArrTail_ascii : ∀ (xs : List Json), ∀ x ∈ dumpsArrTail xs, x.toNat < 0x80
  | [] => by intro x hx; cases hx
  | y :: ys => by
    intro x hx
    rw [show dumpsArrTail (y :: ys) = ',' :: ' ' :: (dumps y ++ dumpsArrTail ys) from rfl,
      List.mem_cons, List.mem_cons] at hx
    rcases hx with h | h | h
    · subst h; decide
    · subst h; decide
    · rw [List.mem_append] at h
      rcases h with h | h
      · exact dumps_ascii y x h
      · exact dumpsArrTail_ascii ys x h

theorem dumpsMember_ascii : ∀ (m : List Char × Json), ∀ x ∈ dumpsMember m, x.toNat < 0x80
  | (k, v) => by
    intro x hx
    rw [show dumpsMember (k, v) = escapeString k ++ (':' :: ' ' :: dumps v) from rfl,
      List.mem_append, List.mem_cons] at hx
    rcases hx with h | h | h
    · exact escapeString_ascii k x h
    · subst h; decide
    · rw [List.mem_cons] at h
      rcases h with h | h
      · subst h; decide
      · exact dumps_ascii v x h

theorem dumpsObjTail_ascii : ∀ (ms : List (List Char × Json)),
    ∀ x ∈ dumpsObjTail ms, x.toNat < 0x80
  | [] => by intro x hx; cases hx
  | m :: ms => by
    intro x hx
    rw [show dumpsObjTail (m :: ms) = ',' :: ' ' :: (dumpsMember m ++ dumpsObjTail ms) from rfl,
      List.mem_cons, List.mem_cons] at hx
    rcases hx with h | h | h
    · subst h; decide
    · subst h; decide
    · rw [List.mem_append] at h
      rcases h with h | h
      · exact dumpsMember_ascii m x h
      · exact dumpsObjTail_ascii ms x h

end

end Broomrocket

namespace Broomrocket

/-! ### `struct.pack("<l", n)` / `struct.unpack("<l", data)` -/

/-- `struct.pack("<l", n)`: 4 little-endian bytes of a signed 32-bit value;
raises `struct.error` when `n` is out of range. -/
def packInt32LE (n : Int) : Except Err (List Nat) :=
  if -(2 ^ 31) ≤ n ∧ n < 2 ^ 31 then
    .ok [(n % 2 ^ 32).toNat % 256, (n % 2 ^ 32).toNat / 256 % 256,
         (n % 2 ^ 32).toNat / 65536 % 256, (n % 2 ^ 32).toNat / 16777216 % 256]
  else .error .structError

/-- `struct.unpack("<l", data)[0]` on a 4-byte little-endian buffer. -/
def unpackInt32LE (bs : List Nat) : Int :=
  let v : Nat := bs.getD 0 0 + 256 * bs.getD 1 0 + 65536 * bs.getD 2 0
    + 16777216 * bs.getD 3 0
  if v < 2 ^ 31 then (v : Int) else (v : Int) - 2 ^ 32

theorem packInt32LE_nonneg (L : Nat) (h : L < 2 ^ 31) :
    packInt32LE (L : Int)
      = .ok [L % 256, L / 256 % 256, L / 65536 % 256, L / 16777216 % 256] := by
  rw [packInt32LE, if_pos (by constructor <;> omega)]
  have hm : (((L : Int) % 2 ^ 32)).toNat = L := by omega
  rw [hm]

theorem unpack_pack (L : Nat) (h : L < 2 ^ 31) :
    unpackInt32LE [L % 256, L / 256 % 256, L / 65536 % 256, L / 16777216 % 256] = (L : Int) := by
  rw [unpackInt32LE]
  have hv : L % 256 + 256 * (L / 256 % 256) + 65536 * (L / 65536 % 256)
      + 16777216 * (L / 16777216 % 256) = L := by omega
  simp only [List.getD]
  norm_num
  omega

/-! ### The `MessageHandler` (dispatcher) -/

/-- The collaborators a `MessageHandler` is constructed over: its
`message_writer.send`, its `message_reader.read_next`, `str(uuid.uuid4())`
(fresh correlation ids; randomness is modelled by a counter, which keeps the
guarantee the program relies on, namely freshness), and
`self.broomrocket.run` (the external pipeline). -/
structure IOImpl (σ : Type) where
  send : Json → PyM σ Unit
  read_next : PyM σ (Option Json)
  genId : PyM σ (List Char)
  runPipeline : Json → Json → Json → PyM σ Unit

/-- `MessageHandler.send_request`: generate a fresh id, write a request
envelope, then return the `"data"` field of whatever the reader yields
next — the id is never compared against the reply. -/
def send_request (io : IOImpl σ) (data : Json) : PyM σ Json := do
  let message_id ← io.genId
  io.send (.jobj [(chars "type", .jstr (chars "request")),
                  (chars "id", .jstr message_id),
                  (chars "data", data)])
  let resp ← io.read_next
  pyLift (getItem resp (chars "data"))

/-- The success payload `on_request` writes back. -/
def okPayload : Json :=
  .jobj [(chars "status", .jstr (chars "ok")),
         (chars "message", .jstr (chars "Executed successfully."))]

/-- The failure payload `on_request` writes back for an exception `e`. -/
def errPayload (e : Err) : Json :=
  .jobj [(chars "status", .jstr (chars "error")),
         (chars "message", .jstr (errStr e))]

/-- A response envelope. -/
def responseEnvelope (idv : Json) (payload : Json) : Json :=
  .jobj [(chars "type", .jstr (chars "response")),
         (chars "id", idv),
         (chars "data", payload)]

/-- A request envelope. -/
def requestEnvelope (idv : List Char) (payload : Json) : Json :=
  .jobj [(chars "type", .jstr (chars "request")),
         (chars "id", .jstr idv),
         (chars "data", payload)]

/-- `MessageHandler.on_request`: run the pipeline on the message's fields and
answer with an ok response; catch any exception and answer with an error
response carrying `str(e)`. -/
def on_request (io : IOImpl σ) (message : Option Json) : PyM σ Unit :=
  pyTry
    (do
      let d1 ← pyLift (getItem message (chars "data"))
      let pid ← pyLift (getItem (some d1) (chars "mesh_provider_id"))
      let d2 ← pyLift (getItem message (chars "data"))
      let pparams ← pyLift (getItem (some d2) (chars "mesh_provider_parameters"))
      let d3 ← pyLift (getItem message (chars "data"))
      let sentence ← pyLift (getItem (some d3) (chars "sentence"))
      io.runPipeline pid pparams sentence
      let idv ← pyLift (getItem message (chars "id"))
      io.send (responseEnvelope idv okPayload))
    (fun e => do
      let idv ← pyLift (getItem message (chars "id"))
      io.send (responseEnvelope idv (errPayload e)))

/-! ### The byte-level connection (`ClientHandler`) -/

/-- Connection state: the deterministic receive queue (exhaustion models the
peer having closed), everything sent, whether we closed our socket, the
fresh-id counter, and the outcome function of the external pipeline
(modelled from the spec: `run(providerId, providerParameters, sentence,
logger)` is an external collaborator, represented here only by the outcome
it produces for given arguments). -/
structure ConnSt where
  recvBuf : List Nat
  sentBytes : List Nat
  closed : Bool
  nextId : Nat
  pipelineResult : Json → Json → Json → Except (List Char) Unit

/-- `socket.recv(n)`: up to `n` bytes; `b""` once the queue is exhausted
(peer closed); `OSError` on our own closed socket. -/
def sockRecv (n : Nat) : PyM ConnSt (List Nat) := fun s =>
  if s.closed then (s, .error .osError)
  else ({s with recvBuf := s.recvBuf.drop n}, .ok (s.recvBuf.take n))

/-- `socket.send`: appends to the wire; `OSError` on a closed socket. -/
def sockSend (bs : List Nat) : PyM ConnSt Unit := fun s =>
  if s.closed then (s, .error .osError)
  else ({s with sentBytes := s.sentBytes ++ bs}, .ok ())

/-- `socket.close()`. -/
def sockClose : PyM ConnSt Unit := fun s => ({s with closed := true}, .ok ())

/-- The bytes `ClientHandler.send` writes for a message:
`struct.pack("<l", len(msg))` then `msg.encode()`, with
`msg = json.dumps(message)`.  `len(msg)` counts characters while the socket
carries bytes; the two agree because the serializer output is ASCII
(`dumps_ascii`). -/
def frameBytes (message : Json) : Except Err (List Nat) :=
  (packInt32LE ((dumps message).length : Int)).map
    (fun p => p ++ utf8Encode (dumps message))

/-- `ClientHandler.send`: pack the frame (propagating `struct.error`), then
write it to the socket. -/
def clientSend (message : Json) : PyM ConnSt Unit :=
  pyLift (frameBytes message) >>= sockSend

/-- The accumulation loop of `ClientHandler.read_next`
(`while len(message_data) < message_length: message_data += recv(...)`).
Result `none` means the loop never terminates: once the queue is exhausted,
`recv` returns `b""` forever and the loop state never changes again
(`recvLoopSteps` below makes this step-indexed reading precise). -/
def recvLoopD : Nat → List Nat → Int → List Nat → Option (List Nat × List Nat)
  | 0, _, _, _ => none
  | fuel + 1, message_data, message_length, buf =>
    if (message_data.length : Int) < message_length then
      match buf with
      | [] => none
      | b :: bs =>
        recvLoopD fuel
          (message_data ++ (b :: bs).take (message_length - message_data.length).toNat)
          message_length ((b :: bs).drop (message_length - message_data.length).toNat)
    else some (message_data, buf)

def recvLoop (message_data : List Nat) (message_length : Int) (buf : List Nat) :
    Option (List Nat × List Nat) :=
  recvLoopD (buf.length + 1) message_data message_length buf

/-- The same loop with an explicit iteration count: `none` means still
running after `fuel` iterations. -/
def recvLoopSteps : Nat → List Nat → Int → List Nat → Option (List Nat × List Nat)
  | 0, _, _, _ => none
  | fuel + 1, message_data, message_length, buf =>
    if (message_data.length : Int) < message_length then
      recvLoopSteps fuel
        (message_data ++ buf.take (message_length - message_data.length).toNat)
        message_length (buf.drop (message_length - message_data.length).toNat)
    else some (message_data, buf)

/-- `ClientHandler.read_next`: read the 4-byte length; on a short read close
the socket and return `None`; otherwise accumulate the declared number of
bytes and `json.loads` them.  On loop divergence the embedding reports
`Err.infiniteLoop` (there is no final state in reality; the receive queue is
recorded as fully drained). -/
def clientReadNext : PyM ConnSt (Option Json) := fun s =>
  match sockRecv 4 s with
  | (s1, .error e) => (s1, .error e)
  | (s1, .ok data) =>
    if data.length < 4 then
      match sockClose s1 with
      | (s2, _) => (s2, .ok none)
    else
      match recvLoop [] (unpackInt32LE data) s1.recvBuf with
      | none => ({s1 with recvBuf := []}, .error .infiniteLoop)
      | some (message_data, restBuf) =>
        let s2 := {s1 with recvBuf := restBuf}
        match utf8Decode message_data with
        | none => (s2, .error .unicodeDecodeError)
        | some cs =>
          match loadsChars cs with
          | .ok j => (s2, .ok (some j))
          | .error e => (s2, .error e)

/-- The `MessageHandler` collaborators as `ClientHandler` provides them
(it is both the message writer and the message reader of its handler). -/
def connIO : IOImpl ConnSt where
  send := clientSend
  read_next := clientReadNext
  genId := fun s => ({s with nextId := s.nextId + 1}, .ok (natToChars s.nextId))
  runPipeline := fun pid pparams sentence s =>
    (s, match s.pipelineResult pid pparams sentence with
        | .ok _ => .ok ()
        | .error m => .error (.pipelineError m))

/-- `ClientHandler.run`: handle exactly one inbound message as a request,
closing the socket in a `finally`. -/
def clientRun : PyM ConnSt Unit :=
  pyFinally
    (do
      let m ← clientReadNext
      on_request connIO m)
    sockClose

end Broomrocket

namespace Broomrocket

/-! ### The remote-proxy object model (`SocketEngine` side) -/

/-- A `SocketCoordinate`: three components and the optional change hook
(`change_callback`), recorded as the mesh it notifies.  `none` covers both an
unset attribute and `None` (in either case no hook runs on the paths the
claims exercise). -/
structure CoordObj where
  x : Int
  y : Int
  z : Int
  callback : Option Nat
deriving DecidableEq, Repr

/-- A `SocketLoadedMesh`: its name, its opaque volume payload (carried
through unchanged), and a reference into the coordinate heap for its
`_translation`. -/
structure MeshObj where
  name : List Char
  size : Json
  translation : Nat
deriving DecidableEq

/-- State for a `MessageHandler` over abstract writer/reader queues (the
`MessageWriter` / `MessageReader` interfaces of the source), together with
the object heap of the proxy model: `written` collects every message handed
to `message_writer.send`, `reader` holds the messages `read_next` will
yield (an exhausted reader models the closed stream, yielding `None`).
Coordinates and meshes live in indexed heaps so that object identity —
which coordinate a mesh's hook is bound to — is expressible. -/
structure EngSt where
  coords : List CoordObj
  meshes : List MeshObj
  written : List Json
  reader : List Json
  nextId : Nat
  pipelineResult : Json → Json → Json → Except (List Char) Unit

/-- The `MessageHandler` collaborators over the abstract queues. -/
def engIO : IOImpl EngSt where
  send := fun m s => ({s with written := s.written ++ [m]}, .ok ())
  read_next := fun s =>
    match s.reader with
    | [] => (s, .ok none)
    | m :: rest => ({s with reader := rest}, .ok (some m))
  genId := fun s => ({s with nextId := s.nextId + 1}, .ok (natToChars s.nextId))
  runPipeline := fun pid pparams sentence s =>
    (s, match s.pipelineResult pid pparams sentence with
        | .ok _ => .ok ()
        | .error m => .error (.pipelineError m))

/-- Dereference a coordinate.  (A dangling index cannot arise from the
modelled operations; the error branch only keeps the function total.) -/
def getCoord (cid : Nat) : PyM EngSt CoordObj := fun s =>
  match s.coords[cid]? with
  | some c => (s, .ok c)
  | none => (s, .error .typeError)

def setCoordAt (cid : Nat) (c : CoordObj) : PyM EngSt Unit := fun s =>
  ({s with coords := s.coords.set cid c}, .ok ())

def getMesh (mid : Nat) : PyM EngSt MeshObj := fun s =>
  match s.meshes[mid]? with
  | some m => (s, .ok m)
  | none => (s, .error .typeError)

def setMeshAt (mid : Nat) (m : MeshObj) : PyM EngSt Unit := fun s =>
  ({s with meshes := s.meshes.set mid m}, .ok ())

/-- `SocketCoordinate.to_dict`. -/
def coordToDict (c : CoordObj) : Json :=
  .jobj [(chars "x", .jnum c.x), (chars "y", .jnum c.y), (chars "z", .jnum c.z)]

/-- `SocketLoadedMesh._translation_changed`: send a `move_mesh` command with
the mesh's name and its current translation, discarding the response. -/
def translationChanged (mid : Nat) : PyM EngSt Unit := do
  let m ← getMesh mid
  let c ← getCoord m.translation
  let _ ← send_request engIO (.jobj [(chars "command", .jstr (chars "move_mesh")),
                                     (chars "name", .jstr m.name),
                                     (chars "translation", coordToDict c)])
  pure ()

/-- The payload `_translation_changed` sends. -/
def moveMsg (name : List Char) (c : CoordObj) : Json :=
  .jobj [(chars "command", .jstr (chars "move_mesh")),
         (chars "name", .jstr name),
         (chars "translation", coordToDict c)]

/-- The `SocketCoordinate.x` setter: store the component, then fire the
change hook if one is bound. -/
def setX (cid : Nat) (v : Int) : PyM EngSt Unit := do
  let c ← getCoord cid
  setCoordAt cid { c with x := v }
  let c2 ← getCoord cid
  match c2.callback with
  | some mid => translationChanged mid
  | none => pure ()

/-- The `SocketCoordinate.y` setter. -/
def setY (cid : Nat) (v : Int) : PyM EngSt Unit := do
  let c ← getCoord cid
  setCoordAt cid { c with y := v }
  let c2 ← getCoord cid
  match c2.callback with
  | some mid => translationChanged mid
  | none => pure ()

/-- The `SocketCoordinate.z` setter. -/
def setZ (cid : Nat) (v : Int) : PyM EngSt Unit := do
  let c ← getCoord cid
  setCoordAt cid { c with z := v }
  let c2 ← getCoord cid
  match c2.callback with
  | some mid => translationChanged mid
  | none => pure ()

/-- The `SocketLoadedMesh.translation` setter: build a new
`SocketCoordinate` from the argument's components, store it, bind its change
hook to this mesh, then fire `_translation_changed` once. -/
def setTranslation (mid : Nat) (srcCid : Nat) : PyM EngSt Unit := do
  let src ← getCoord srcCid
  let s ← pyGet
  let newId := s.coords.length
  pySet { s with coords := s.coords ++ [{ x := src.x, y := src.y, z := src.z, callback := none }] }
  let m ← getMesh mid
  setMeshAt mid { m with translation := newId }
  let c ← getCoord newId
  setCoordAt newId { c with callback := some mid }
  translationChanged mid

/-- The hook-binding part of `SocketLoadedMesh.__init__`: a fresh mesh over
an existing coordinate, whose `change_callback` is bound to the new mesh. -/
def newMesh (name : List Char) (size : Json) (cid : Nat) : PyM EngSt Nat := do
  let s ← pyGet
  let mid := s.meshes.length
  pySet { s with meshes := s.meshes ++ [{ name := name, size := size, translation := cid }] }
  let c ← getCoord cid
  setCoordAt cid { c with callback := some mid }
  pure mid

end Broomrocket

namespace Broomrocket

/-! ### Frame-level lemmas -/

theorem recvLoopD_succ (fuel : Nat) (md : List Nat) (L : Int) (buf : List Nat) :
    recvLoopD (fuel + 1) md L buf
      = (if (md.length : Int) < L then
          match buf with
          | [] => none
          | b :: bs =>
            recvLoopD fuel (md ++ (b :: bs).take (L - md.length).toNat) L
              ((b :: bs).drop (L - md.length).toNat)
        else some (md, buf)) := rfl

theorem recvLoopD_exact : ∀ (fuel : Nat) (body rest : List Nat), body.length < fuel →
    recvLoopD fuel [] (body.length : Int) (body ++ rest) = some (body, rest)
  | 0, body, _, h => absurd h (Nat.not_lt_zero _)
  | fuel + 1, [], rest, _h => by
    rw [recvLoopD_succ]
    rw [if_neg (by simp)]
    simp
  | fuel + 1, b :: t, rest, h => by
    rw [recvLoopD_succ]
    rw [if_pos (by simp)]
    simp only [List.cons_append, List.length_nil, List.nil_append]
    rw [show ((((b :: t).length : Nat) : Int) - ((0 : Nat) : Int)).toNat
        = (b :: t).length from by simp]
    rw [show b :: (t ++ rest) = (b :: t) ++ rest from rfl]
    rw [List.take_left' rfl, List.drop_left' rfl]
    cases fuel with
    | zero => simp at h
    | succ g =>
      rw [recvLoopD_succ]
      rw [if_neg (by simp)]

theorem recvLoop_exact (body rest : List Nat) :
    recvLoop [] (body.length : Int) (body ++ rest) = some (body, rest) := by
  rw [recvLoop]
  exact recvLoopD_exact _ _ _ (by simp [List.length_append]; omega)

theorem sockRecv_open (n : Nat) (s : ConnSt) (h : s.closed = false) :
    sockRecv n s = ({s with recvBuf := s.recvBuf.drop n}, .ok (s.recvBuf.take n)) := by
  rw [sockRecv, h]
  simp

theorem sockSend_open (bs : List Nat) (s : ConnSt) (h : s.closed = false) :
    sockSend bs s = ({s with sentBytes := s.sentBytes ++ bs}, .ok ()) := by
  rw [sockSend, h]
  simp

theorem utf8Encode_dumps_length (j : Json) :
    (utf8Encode (dumps j)).length = (dumps j).length := by
  rw [utf8Encode_ascii _ (dumps_ascii j), List.length_map]

theorem frameBytes_ok (j : Json) (h : (dumps j).length < 2 ^ 31) :
    frameBytes j = .ok ([(dumps j).length % 256, (dumps j).length / 256 % 256,
      (dumps j).length / 65536 % 256, (dumps j).length / 16777216 % 256]
      ++ utf8Encode (dumps j)) := by
  rw [frameBytes, packInt32LE_nonneg _ h]
  rfl

/-- Reading one well-formed frame from the head of the receive queue yields
its envelope and consumes exactly the frame. -/
theorem clientReadNext_frame (j : Json) (s : ConnSt) (bs rest : List Nat)
    (hlen : (dumps j).length < 2 ^ 31)
    (hframe : frameBytes j = .ok bs)
    (hopen : s.closed = false)
    (hbuf : s.recvBuf = bs ++ rest) :
    clientReadNext s = ({s with recvBuf := rest}, .ok (some j)) := by
  rw [frameBytes_ok j hlen] at hframe
  have hbs : bs = [(dumps j).length % 256, (dumps j).length / 256 % 256,
      (dumps j).length / 65536 % 256, (dumps j).length / 16777216 % 256]
      ++ utf8Encode (dumps j) := by
    injection hframe with h1
    exact h1.symm
  subst hbs
  have hp4 : ([(dumps j).length % 256, (dumps j).length / 256 % 256,
      (dumps j).length / 65536 % 256, (dumps j).length / 16777216 % 256]).length = 4 := rfl
  have htake : ([(dumps j).length % 256, (dumps j).length / 256 % 256,
      (dumps j).length / 65536 % 256, (dumps j).length / 16777216 % 256]
      ++ (utf8Encode (dumps j) ++ rest)).take 4
      = [(dumps j).length % 256, (dumps j).length / 256 % 256,
         (dumps j).length / 65536 % 256, (dumps j).length / 16777216 % 256] :=
    List.take_left' hp4
  have hdrop : ([(dumps j).length % 256, (dumps j).length / 256 % 256,
      (dumps j).length / 65536 % 256, (dumps j).length / 16777216 % 256]
      ++ (utf8Encode (dumps j) ++ rest)).drop 4
      = utf8Encode (dumps j) ++ rest :=
    List.drop_left' hp4
  have hunpack : unpackInt32LE [(dumps j).length % 256, (dumps j).length / 256 % 256,
      (dumps j).length / 65536 % 256, (dumps j).length / 16777216 % 256]
      = ((dumps j).length : Int) := unpack_pack _ hlen
  have hloop := recvLoop_exact (utf8Encode (dumps j)) rest
  rw [utf8Encode_dumps_length] at hloop
  have hdec := utf8Decode_encode_ascii _ (dumps_ascii j)
  have hload := loads_dumps j
  simp [clientReadNext, sockRecv_open 4 s hopen, hbuf, List.append_assoc,
    htake, hdrop, hunpack, hloop, hdec, hload]

end Broomrocket

namespace Broomrocket

/-! ### Monad unfolding lemmas -/

theorem pyBind_def (x : PyM σ α) (f : α → PyM σ β) (s : σ) :
    (x >>= f) s = (match x s with
      | (s', .ok a) => f a s'
      | (s', .error e) => (s', .error e)) := rfl

theorem pyPure_def (a : α) (s : σ) : (pure a : PyM σ α) s = (s, .ok a) := rfl

/-- `ClientHandler.send` on an open socket when packing succeeds: the frame
bytes are appended to the wire. -/
theorem clientSend_ok (m : Json) (bs : List Nat) (s : ConnSt)
    (hopen : s.closed = false) (hframe : frameBytes m = .ok bs) :
    clientSend m s = ({s with sentBytes := s.sentBytes ++ bs}, .ok ()) := by
  have h1 : clientSend m = pyLift (Except.ok bs) >>= sockSend := by
    rw [clientSend, hframe]
  rw [h1]
  exact sockSend_open bs s hopen

/-- `ClientHandler.read_next` on an open socket with an exhausted stream:
`recv(4)` returns no bytes, so the socket is closed and `None` is returned. -/
theorem clientReadNext_empty (s : ConnSt) (hopen : s.closed = false)
    (hbuf : s.recvBuf = []) :
    clientReadNext s = ({s with recvBuf := [], closed := true}, .ok none) := by
  simp [clientReadNext, sockRecv_open 4 s hopen, hbuf, sockClose]

/-- One pass through `MessageHandler.send_request` when the three I/O steps
behave as given and `read_next` returns `None`: subscripting the `None`
raises `TypeError`. -/
theorem send_request_steps (io : IOImpl σ) (d : Json) (s s1 s2 s3 : σ)
    (mid : List Char)
    (hgen : io.genId s = (s1, .ok mid))
    (hsend : io.send (requestEnvelope mid d) s1 = (s2, .ok ()))
    (hread : io.read_next s2 = (s3, .ok none)) :
    send_request io d s = (s3, .error .typeError) := by
  simp only [requestEnvelope] at hsend
  simp [send_request, pyBind_def, hgen, hsend, hread, pyLift, getItem]

/-- The `send` of the socket I/O interpretation is `ClientHandler.send`. -/
theorem connIO_send : connIO.send = clientSend := rfl

/-- The `read_next` of the socket I/O interpretation is
`ClientHandler.read_next`. -/
theorem connIO_read_next : connIO.read_next = clientReadNext := rfl

/-- Correlation-id generation over the socket: the counter standing in for
`uuid.uuid4()` is bumped and its decimal form returned. -/
theorem connIO_genId (s : ConnSt) :
    connIO.genId s = ({s with nextId := s.nextId + 1}, .ok (natToChars s.nextId)) := rfl

/-! ### Claim C1 — request/response correlation in `send_request` -/

/-- C1 counterexample: with one inbound message whose id `"zzz"` differs from
the generated correlation id `"0"` (and which is not even of kind
`response`-matching-anything), `send_request` still returns its `"data"`
payload.  So the value returned is not the payload of the response whose id
equals the correlation id generated for that request — no such response ever
arrives, yet the call returns. -/
theorem C1_counterexample :
    (send_request engIO (.jnum 1)
      { coords := [], meshes := [], written := [],
        reader := [responseEnvelope (.jstr (chars "zzz")) (.jstr (chars "intruder"))],
        nextId := 0, pipelineResult := fun _ _ _ => .ok () }).2
      = .ok (.jstr (chars "intruder"))
    ∧ (send_request engIO (.jnum 1)
      { coords := [], meshes := [], written := [],
        reader := [responseEnvelope (.jstr (chars "zzz")) (.jstr (chars "intruder"))],
        nextId := 0, pipelineResult := fun _ _ _ => .ok () }).1.written
      = [requestEnvelope (chars "0") (.jnum 1)]
    ∧ chars "zzz" ≠ chars "0" := by
  refine ⟨?_, ?_, ?_⟩ <;> decide

/-- C1 (amended): `MessageHandler.send_request` generates a fresh id, writes
a request envelope carrying it, and returns the `"data"` field of the next
message the reader yields — whatever its id or kind; no correlation
matching is performed and concurrent callers are not distinguished. -/
theorem C1_send_request_returns_next_data (s : EngSt) (data m d : Json)
    (rest : List Json)
    (hr : s.reader = m :: rest)
    (hd : getItem (some m) (chars "data") = .ok d) :
    send_request engIO data s
      = ({s with
          reader := rest
          nextId := s.nextId + 1
          written := s.written ++ [requestEnvelope (natToChars s.nextId) data]}, .ok d) := by
  simp [send_request, engIO, pyBind_def, pyLift, hr, hd, requestEnvelope]

/-- C1 witness: the amended statement at a concrete state. -/
theorem C1_witness :
    send_request engIO (.jnum 7)
      { coords := [], meshes := [], written := [],
        reader := [responseEnvelope (.jstr (chars "0")) (.jstr (chars "pong"))],
        nextId := 0, pipelineResult := fun _ _ _ => .ok () }
      = ({ coords := [], meshes := [],
           written := [requestEnvelope (natToChars 0) (.jnum 7)],
           reader := [], nextId := 1, pipelineResult := fun _ _ _ => .ok () },
         .ok (.jstr (chars "pong"))) := by
  have h := C1_send_request_returns_next_data
    { coords := [], meshes := [], written := [],
      reader := [responseEnvelope (.jstr (chars "0")) (.jstr (chars "pong"))],
      nextId := 0, pipelineResult := fun _ _ _ => .ok () }
    (.jnum 7) (responseEnvelope (.jstr (chars "0")) (.jstr (chars "pong")))
    (.jstr (chars "pong")) [] rfl (by decide)
  exact h

/-! ### Claim C2 — `on_request` answers with ok / error responses -/

/-- C2: for an inbound request envelope carrying an id and the three pipeline
fields, `on_request` writes back exactly one response with the same id:
payload `{status: "ok", message: "Executed successfully."}` when the
pipeline run succeeds, and `{status: "error", message: str(e)}` when it
raises; in both cases the handler itself returns without an exception — the
failure never propagates out of `on_request`. -/
theorem C2_on_request_responses (s : EngSt) (msg d idv pid pparams sentence : Json)
    (hd : getItem (some msg) (chars "data") = .ok d)
    (hpid : getItem (some d) (chars "mesh_provider_id") = .ok pid)
    (hpp : getItem (some d) (chars "mesh_provider_parameters") = .ok pparams)
    (hsent : getItem (some d) (chars "sentence") = .ok sentence)
    (hid : getItem (some msg) (chars "id") = .ok idv) :
    (s.pipelineResult pid pparams sentence = .ok () →
      on_request engIO (some msg) s
        = ({s with written := s.written ++ [responseEnvelope idv okPayload]}, .ok ()))
    ∧ (∀ m : List Char, s.pipelineResult pid pparams sentence = .error m →
      on_request engIO (some msg) s
        = ({s with written := s.written ++ [responseEnvelope idv (errPayload (.pipelineError m))]},
           .ok ())) := by
  constructor
  · intro hpl
    simp [on_request, pyTry, pyBind_def, pyLift, hd, hpid, hpp, hsent, hid, engIO, hpl]
  · intro m hpl
    simp [on_request, pyTry, pyBind_def, pyLift, hd, hpid, hpp, hsent, hid, engIO, hpl]

/-- C2 witness: both branches at concrete states (one whose pipeline
succeeds, one whose pipeline raises with message `"boom"`). -/
theorem C2_witness :
    on_request engIO (some (requestEnvelope (chars "abc")
        (.jobj [(chars "mesh_provider_id", .jstr (chars "dummy")),
                (chars "mesh_provider_parameters", .jobj []),
                (chars "sentence", .jstr (chars "x"))])))
      { coords := [], meshes := [], written := [], reader := [],
        nextId := 0, pipelineResult := fun _ _ _ => .ok () }
      = ({ coords := [], meshes := [],
           written := [responseEnvelope (.jstr (chars "abc")) okPayload],
           reader := [], nextId := 0, pipelineResult := fun _ _ _ => .ok () }, .ok ())
    ∧ on_request engIO (some (requestEnvelope (chars "abc")
        (.jobj [(chars "mesh_provider_id", .jstr (chars "dummy")),
                (chars "mesh_provider_parameters", .jobj []),
                (chars "sentence", .jstr (chars "x"))])))
      { coords := [], meshes := [], written := [], reader := [],
        nextId := 0, pipelineResult := fun _ _ _ => .error (chars "boom") }
      = ({ coords := [], meshes := [],
           written := [responseEnvelope (.jstr (chars "abc"))
             (errPayload (.pipelineError (chars "boom")))],
           reader := [], nextId := 0,
           pipelineResult := fun _ _ _ => .error (chars "boom") }, .ok ()) := by
  constructor
  · exact (C2_on_request_responses
      { coords := [], meshes := [], written := [], reader := [],
        nextId := 0, pipelineResult := fun _ _ _ => .ok () }
      (requestEnvelope (chars "abc")
        (.jobj [(chars "mesh_provider_id", .jstr (chars "dummy")),
                (chars "mesh_provider_parameters", .jobj []),
                (chars "sentence", .jstr (chars "x"))]))
      (.jobj [(chars "mesh_provider_id", .jstr (chars "dummy")),
              (chars "mesh_provider_parameters", .jobj []),
              (chars "sentence", .jstr (chars "x"))])
      (.jstr (chars "abc")) (.jstr (chars "dummy")) (.jobj []) (.jstr (chars "x"))
      (by decide) (by decide) (by decide) (by decide) (by decide)).1 rfl
  · exact (C2_on_request_responses
      { coords := [], meshes := [], written := [], reader := [],
        nextId := 0, pipelineResult := fun _ _ _ => .error (chars "boom") }
      (requestEnvelope (chars "abc")
        (.jobj [(chars "mesh_provider_id", .jstr (chars "dummy")),
                (chars "mesh_provider_parameters", .jobj []),
                (chars "sentence", .jstr (chars "x"))]))
      (.jobj [(chars "mesh_provider_id", .jstr (chars "dummy")),
              (chars "mesh_provider_parameters", .jobj []),
              (chars "sentence", .jstr (chars "x"))])
      (.jstr (chars "abc")) (.jstr (chars "dummy")) (.jobj []) (.jstr (chars "x"))
      (by decide) (by decide) (by decide) (by decide) (by decide)).2 (chars "boom") rfl

end Broomrocket

namespace Broomrocket

/-! ### Claim C3 — coordinate mutation forwarding with hook re-binding -/

/-- C3: for a proxy mesh (any name, any prior traffic) whose translation is
the coordinate `(0,0,0)` with the change hook bound, (1) setting `x = 5`
issues exactly one `move_mesh` command carrying the name and `(5,0,0)`;
(2) assigning the whole coordinate object `(1,2,3)` stores a fresh
coordinate, re-binds the hook to it, and issues exactly one command with
`(1,2,3)` — the re-bind itself emits nothing; (3) a further `x = 7` on the
newly assigned coordinate issues exactly one further command with
`(7,2,3)`, confirming the hook was re-bound.  Each reader message only has
to be a dict with a `"data"` field (the response is discarded). -/
theorem C3_coordinate_mutation_forwarding
    (nm : List Char) (sz r1 r2 r3 : Json) (rrest : List Json)
    (w : List Json) (n : Nat) (f : Json → Json → Json → Except (List Char) Unit)
    (d1 d2 d3 : Json)
    (hr1 : getItem (some r1) (chars "data") = .ok d1)
    (hr2 : getItem (some r2) (chars "data") = .ok d2)
    (hr3 : getItem (some r3) (chars "data") = .ok d3) :
    setX 0 5
      { coords := [⟨0, 0, 0, some 0⟩, ⟨1, 2, 3, none⟩]
        meshes := [⟨nm, sz, 0⟩]
        written := w
        reader := r1 :: r2 :: r3 :: rrest
        nextId := n
        pipelineResult := f }
      = ({ coords := [⟨5, 0, 0, some 0⟩, ⟨1, 2, 3, none⟩]
           meshes := [⟨nm, sz, 0⟩]
           written := w ++ [requestEnvelope (natToChars n) (moveMsg nm ⟨5, 0, 0, some 0⟩)]
           reader := r2 :: r3 :: rrest
           nextId := n + 1
           pipelineResult := f }, .ok ())
    ∧ setTranslation 0 1
      { coords := [⟨5, 0, 0, some 0⟩, ⟨1, 2, 3, none⟩]
        meshes := [⟨nm, sz, 0⟩]
        written := w ++ [requestEnvelope (natToChars n) (moveMsg nm ⟨5, 0, 0, some 0⟩)]
        reader := r2 :: r3 :: rrest
        nextId := n + 1
        pipelineResult := f }
      = ({ coords := [⟨5, 0, 0, some 0⟩, ⟨1, 2, 3, none⟩, ⟨1, 2, 3, some 0⟩]
           meshes := [⟨nm, sz, 2⟩]
           written := (w ++ [requestEnvelope (natToChars n) (moveMsg nm ⟨5, 0, 0, some 0⟩)])
             ++ [requestEnvelope (natToChars (n + 1)) (moveMsg nm ⟨1, 2, 3, some 0⟩)]
           reader := r3 :: rrest
           nextId := n + 2
           pipelineResult := f }, .ok ())
    ∧ setX 2 7
      { coords := [⟨5, 0, 0, some 0⟩, ⟨1, 2, 3, none⟩, ⟨1, 2, 3, some 0⟩]
        meshes := [⟨nm, sz, 2⟩]
        written := (w ++ [requestEnvelope (natToChars n) (moveMsg nm ⟨5, 0, 0, some 0⟩)])
          ++ [requestEnvelope (natToChars (n + 1)) (moveMsg nm ⟨1, 2, 3, some 0⟩)]
        reader := r3 :: rrest
        nextId := n + 2
        pipelineResult := f }
      = ({ coords := [⟨5, 0, 0, some 0⟩, ⟨1, 2, 3, none⟩, ⟨7, 2, 3, some 0⟩]
           meshes := [⟨nm, sz, 2⟩]
           written := ((w ++ [requestEnvelope (natToChars n) (moveMsg nm ⟨5, 0, 0, some 0⟩)])
             ++ [requestEnvelope (natToChars (n + 1)) (moveMsg nm ⟨1, 2, 3, some 0⟩)])
             ++ [requestEnvelope (natToChars (n + 2)) (moveMsg nm ⟨7, 2, 3, some 0⟩)]
           reader := rrest
           nextId := n + 3
           pipelineResult := f }, .ok ()) := by
  refine ⟨?_, ?_, ?_⟩
  · simp [setX, getCoord, setCoordAt, getMesh, translationChanged, send_request, engIO,
      pyBind_def, pyPure_def, pyLift, hr1, moveMsg, requestEnvelope, coordToDict]
  · simp [setTranslation, getCoord, setCoordAt, getMesh, setMeshAt, pyGet, pySet,
      translationChanged, send_request, engIO,
      pyBind_def, pyPure_def, pyLift, hr2, moveMsg, requestEnvelope, coordToDict]
  · simp [setX, getCoord, setCoordAt, getMesh, translationChanged, send_request, engIO,
      pyBind_def, pyPure_def, pyLift, hr3, moveMsg, requestEnvelope, coordToDict]

/-- C3 witness: the three steps at a concrete mesh named `"box"`. -/
theorem C3_witness :
    setX 0 5
      { coords := [⟨0, 0, 0, some 0⟩, ⟨1, 2, 3, none⟩]
        meshes := [⟨chars "box", .jnull, 0⟩]
        written := []
        reader := [.jobj [(chars "data", .jnull)], .jobj [(chars "data", .jnull)],
          .jobj [(chars "data", .jnull)]]
        nextId := 0
        pipelineResult := fun _ _ _ => .ok () }
      = ({ coords := [⟨5, 0, 0, some 0⟩, ⟨1, 2, 3, none⟩]
           meshes := [⟨chars "box", .jnull, 0⟩]
           written := [] ++ [requestEnvelope (natToChars 0) (moveMsg (chars "box") ⟨5, 0, 0, some 0⟩)]
           reader := [.jobj [(chars "data", .jnull)], .jobj [(chars "data", .jnull)]]
           nextId := 0 + 1
           pipelineResult := fun _ _ _ => .ok () }, .ok ()) :=
  (C3_coordinate_mutation_forwarding (chars "box") .jnull
    (.jobj [(chars "data", .jnull)]) (.jobj [(chars "data", .jnull)])
    (.jobj [(chars "data", .jnull)]) [] [] 0 (fun _ _ _ => .ok ())
    .jnull .jnull .jnull (by decide) (by decide) (by decide)).1

/-! ### Claim C9 — whole-coordinate assignment copies the components -/

/-- C9: assigning a coordinate object `c` (heap index 1, hook unbound) to a
mesh's translation allocates a fresh coordinate (index 2) holding copies of
the components of `c`, binds the hook to the fresh one, points the mesh at
it (not at `c`), and fires exactly one `move_mesh` command; afterwards,
mutating the original `c` stores into `c` only — it issues no command and
leaves the mesh's own coordinate untouched. -/
theorem C9_translation_assignment_copies
    (nm : List Char) (sz r1 : Json) (rrest : List Json)
    (w : List Json) (n : Nat) (f : Json → Json → Json → Except (List Char) Unit)
    (a1 a2 a3 b1 b2 b3 v : Int) (d1 : Json)
    (hr1 : getItem (some r1) (chars "data") = .ok d1) :
    setTranslation 0 1
      { coords := [⟨a1, a2, a3, some 0⟩, ⟨b1, b2, b3, none⟩]
        meshes := [⟨nm, sz, 0⟩]
        written := w
        reader := r1 :: rrest
        nextId := n
        pipelineResult := f }
      = ({ coords := [⟨a1, a2, a3, some 0⟩, ⟨b1, b2, b3, none⟩, ⟨b1, b2, b3, some 0⟩]
           meshes := [⟨nm, sz, 2⟩]
           written := w ++ [requestEnvelope (natToChars n) (moveMsg nm ⟨b1, b2, b3, some 0⟩)]
           reader := rrest
           nextId := n + 1
           pipelineResult := f }, .ok ())
    ∧ setX 1 v
      { coords := [⟨a1, a2, a3, some 0⟩, ⟨b1, b2, b3, none⟩, ⟨b1, b2, b3, some 0⟩]
        meshes := [⟨nm, sz, 2⟩]
        written := w ++ [requestEnvelope (natToChars n) (moveMsg nm ⟨b1, b2, b3, some 0⟩)]
        reader := rrest
        nextId := n + 1
        pipelineResult := f }
      = ({ coords := [⟨a1, a2, a3, some 0⟩, ⟨v, b2, b3, none⟩, ⟨b1, b2, b3, some 0⟩]
           meshes := [⟨nm, sz, 2⟩]
           written := w ++ [requestEnvelope (natToChars n) (moveMsg nm ⟨b1, b2, b3, some 0⟩)]
           reader := rrest
           nextId := n + 1
           pipelineResult := f }, .ok ()) := by
  constructor
  · simp [setTranslation, getCoord, setCoordAt, getMesh, setMeshAt, pyGet, pySet,
      translationChanged, send_request, engIO,
      pyBind_def, pyPure_def, pyLift, hr1, moveMsg, requestEnvelope, coordToDict]
  · simp [setX, getCoord, setCoordAt, pyBind_def, pyPure_def, pyLift]

/-- C9 witness: the assignment-then-mutate scenario at concrete values. -/
theorem C9_witness :
    setX 1 99
      { coords := [⟨8, 8, 8, some 0⟩, ⟨4, 5, 6, none⟩, ⟨4, 5, 6, some 0⟩]
        meshes := [⟨chars "box", .jnull, 2⟩]
        written := [] ++ [requestEnvelope (natToChars 0) (moveMsg (chars "box") ⟨4, 5, 6, some 0⟩)]
        reader := []
        nextId := 0 + 1
        pipelineResult := fun _ _ _ => .ok () }
      = ({ coords := [⟨8, 8, 8, some 0⟩, ⟨99, 5, 6, none⟩, ⟨4, 5, 6, some 0⟩]
           meshes := [⟨chars "box", .jnull, 2⟩]
           written := [] ++ [requestEnvelope (natToChars 0) (moveMsg (chars "box") ⟨4, 5, 6, some 0⟩)]
           reader := []
           nextId := 0 + 1
           pipelineResult := fun _ _ _ => .ok () }, .ok ()) :=
  (C9_translation_assignment_copies (chars "box") .jnull (.jobj [(chars "data", .jnull)])
    [] [] 0 (fun _ _ _ => .ok ()) 8 8 8 4 5 6 99 .jnull (by decide)).2

/-! ### Claim C10 — component writes always forward, even when unchanged -/

/-- C10: writing any single component of the mesh's bound coordinate issues
exactly one `move_mesh` command even when the written value equals the
current one: the setters perform no change detection before firing the
hook.  All three components are covered, each from the same initial
state. -/
theorem C10_component_write_always_sends
    (nm : List Char) (sz r1 : Json) (rrest : List Json)
    (w : List Json) (n : Nat) (f : Json → Json → Json → Except (List Char) Unit)
    (a b c : Int) (d1 : Json)
    (hr1 : getItem (some r1) (chars "data") = .ok d1) :
    setX 0 a
      { coords := [⟨a, b, c, some 0⟩]
        meshes := [⟨nm, sz, 0⟩]
        written := w
        reader := r1 :: rrest
        nextId := n
        pipelineResult := f }
      = ({ coords := [⟨a, b, c, some 0⟩]
           meshes := [⟨nm, sz, 0⟩]
           written := w ++ [requestEnvelope (natToChars n) (moveMsg nm ⟨a, b, c, some 0⟩)]
           reader := rrest
           nextId := n + 1
           pipelineResult := f }, .ok ())
    ∧ setY 0 b
      { coords := [⟨a, b, c, some 0⟩]
        meshes := [⟨nm, sz, 0⟩]
        written := w
        reader := r1 :: rrest
        nextId := n
        pipelineResult := f }
      = ({ coords := [⟨a, b, c, some 0⟩]
           meshes := [⟨nm, sz, 0⟩]
           written := w ++ [requestEnvelope (natToChars n) (moveMsg nm ⟨a, b, c, some 0⟩)]
           reader := rrest
           nextId := n + 1
           pipelineResult := f }, .ok ())
    ∧ setZ 0 c
      { coords := [⟨a, b, c, some 0⟩]
        meshes := [⟨nm, sz, 0⟩]
        written := w
        reader := r1 :: rrest
        nextId := n
        pipelineResult := f }
      = ({ coords := [⟨a, b, c, some 0⟩]
           meshes := [⟨nm, sz, 0⟩]
           written := w ++ [requestEnvelope (natToChars n) (moveMsg nm ⟨a, b, c, some 0⟩)]
           reader := rrest
           nextId := n + 1
           pipelineResult := f }, .ok ()) := by
  refine ⟨?_, ?_, ?_⟩
  · simp [setX, getCoord, setCoordAt, getMesh, translationChanged, send_request, engIO,
      pyBind_def, pyPure_def, pyLift, hr1, moveMsg, requestEnvelope, coordToDict]
  · simp [setY, getCoord, setCoordAt, getMesh, translationChanged, send_request, engIO,
      pyBind_def, pyPure_def, pyLift, hr1, moveMsg, requestEnvelope, coordToDict]
  · simp [setZ, getCoord, setCoordAt, getMesh, translationChanged, send_request, engIO,
      pyBind_def, pyPure_def, pyLift, hr1, moveMsg, requestEnvelope, coordToDict]

/-- C10 witness: an unchanged-value write at concrete values still sends one
command. -/
theorem C10_witness :
    setX 0 5
      { coords := [⟨5, 6, 7, some 0⟩]
        meshes := [⟨chars "box", .jnull, 0⟩]
        written := []
        reader := [.jobj [(chars "data", .jnull)]]
        nextId := 0
        pipelineResult := fun _ _ _ => .ok () }
      = ({ coords := [⟨5, 6, 7, some 0⟩]
           meshes := [⟨chars "box", .jnull, 0⟩]
           written := [] ++ [requestEnvelope (natToChars 0) (moveMsg (chars "box") ⟨5, 6, 7, some 0⟩)]
           reader := []
           nextId := 0 + 1
           pipelineResult := fun _ _ _ => .ok () }, .ok ()) :=
  (C10_component_write_always_sends (chars "box") .jnull (.jobj [(chars "data", .jnull)])
    [] [] 0 (fun _ _ _ => .ok ()) 5 6 7 .jnull (by decide)).1

end Broomrocket

namespace Broomrocket

set_option maxRecDepth 40000

/-! ### Claim C4 — frame codec round-trip -/

/-- C4: encoding an envelope as `ClientHandler.send` does (4-byte
little-endian signed length of the serialized text, then its UTF-8 bytes)
and then decoding those bytes as `ClientHandler.read_next` does yields an
envelope equal to the original, for every embedded JSON value whose
serialization fits the 32-bit length field. -/
theorem C4_frame_roundtrip (j : Json) (s : ConnSt) (bs rest : List Nat)
    (hlen : (dumps j).length < 2 ^ 31)
    (hframe : frameBytes j = .ok bs)
    (hopen : s.closed = false)
    (hbuf : s.recvBuf = bs ++ rest) :
    clientReadNext s = ({s with recvBuf := rest}, .ok (some j)) :=
  clientReadNext_frame j s bs rest hlen hframe hopen hbuf

/-- The frame of the C4 witness envelope. -/
def c4frame : List Nat :=
  (frameBytes (requestEnvelope (chars "a") (.jnum 5))).toOption.getD []

/-- C4 witness: the round trip at the concrete envelope
`{"type": "request", "id": "a", "data": 5}`. -/
theorem C4_witness :
    clientReadNext
      { recvBuf := c4frame, sentBytes := [], closed := false, nextId := 0,
        pipelineResult := fun _ _ _ => .ok () }
      = ({ recvBuf := [], sentBytes := [], closed := false, nextId := 0,
           pipelineResult := fun _ _ _ => .ok () },
         .ok (some (requestEnvelope (chars "a") (.jnum 5)))) :=
  C4_frame_roundtrip (requestEnvelope (chars "a") (.jnum 5))
    { recvBuf := c4frame, sentBytes := [], closed := false, nextId := 0,
      pipelineResult := fun _ _ _ => .ok () }
    c4frame [] (by decide) (by decide) rfl (by simp)

end Broomrocket

namespace Broomrocket

set_option maxRecDepth 80000

/-- An open connection in its initial state over the given receive queue,
with a pipeline that succeeds; the concrete scenarios below start here. -/
def openConn (buf : List Nat) : ConnSt :=
  { recvBuf := buf, sentBytes := [], closed := false, nextId := 0,
    pipelineResult := fun _ _ _ => .ok () }

/-! ### Claim C5 — truncated stream makes the read loop spin forever -/

/-- C5: when the peer closes after sending only the length prefix (here
`05 00 00 00`, declaring five payload bytes that never arrive), the
accumulation loop of `ClientHandler.read_next` never terminates: `recv`
returns the empty byte string forever and the loop state never changes, so
no number of iterations completes it (first conjunct), and the embedded
`read_next` reports the divergence instead of a `FramingError` or clean
termination (second and third conjuncts); no `ConnectionClosedError`
mechanism exists anywhere in the code, so a pending `sendCommand` is not
resolved either.  This contradicts the claim, whose requirement the spec
states explicitly, so the code is at fault. -/
theorem C5_truncated_stream_loops_forever :
    (∀ fuel : Nat, recvLoopSteps fuel [] 5 [] = none)
    ∧ (clientReadNext (openConn [5, 0, 0, 0])).2 = .error .infiniteLoop
    ∧ recvLoop [] 5 [] = none := by
  refine ⟨?_, by decide, by decide⟩
  intro fuel
  induction fuel with
  | zero => rfl
  | succ f ih =>
    rw [recvLoopSteps]
    rw [if_pos (by simp)]
    simpa using ih

/-! ### Claim C6 — no receive loop, no kind dispatch in `ClientHandler.run` -/

/-- The first queued envelope of the C6 scenario: a well-formed request that
the pipeline can execute. -/
def c6env1 : Json :=
  .jobj [(chars "type", .jstr (chars "request")),
         (chars "id", .jstr (chars "abc")),
         (chars "data", .jobj [(chars "mesh_provider_id", .jstr (chars "dummy")),
                               (chars "mesh_provider_parameters", .jobj []),
                               (chars "sentence", .jstr (chars "hi"))])]

/-- The second queued envelope of the C6 scenario, equally well formed. -/
def c6env2 : Json :=
  .jobj [(chars "type", .jstr (chars "request")),
         (chars "id", .jstr (chars "def")),
         (chars "data", .jobj [(chars "mesh_provider_id", .jstr (chars "dummy")),
                               (chars "mesh_provider_parameters", .jobj []),
                               (chars "sentence", .jstr (chars "bye"))])]

/-- The frame of the first C6 envelope. -/
def c6frame1 : List Nat := (frameBytes c6env1).toOption.getD []

/-- The frame of the second C6 envelope. -/
def c6frame2 : List Nat := (frameBytes c6env2).toOption.getD []

/-- C6 counterexample: with two complete request envelopes queued on the
connection, `ClientHandler.run` terminates normally having answered only the
first (the wire holds exactly the response to id `"abc"`), leaves the whole
second frame unread in the receive queue, and closes the socket.  So the
session does not process every inbound envelope — there is no receive loop
and no per-kind dispatch, only a single unconditional `on_request` call. -/
theorem C6_counterexample :
    (clientRun (openConn (c6frame1 ++ c6frame2))).2 = .ok ()
    ∧ (clientRun (openConn (c6frame1 ++ c6frame2))).1.sentBytes
        = (frameBytes (responseEnvelope (.jstr (chars "abc")) okPayload)).toOption.getD []
    ∧ (clientRun (openConn (c6frame1 ++ c6frame2))).1.recvBuf = c6frame2
    ∧ c6frame2 ≠ []
    ∧ (clientRun (openConn (c6frame1 ++ c6frame2))).1.closed = true := by
  exact ⟨by decide, by decide, by decide, by decide, by decide⟩

/-- C6 (amended): `ClientHandler.run` decodes exactly one envelope — the
frame at the head of the receive queue — hands it unconditionally to
`MessageHandler.on_request` (there is no receive loop and no dispatch on an
envelope kind; a response envelope would be fed to the request handler just
the same), and then closes the socket, leaving every later queued byte
unread by `run` itself. -/
theorem C6_run_reads_single_envelope (j : Json) (s : ConnSt) (bs rest : List Nat)
    (hlen : (dumps j).length < 2 ^ 31)
    (hframe : frameBytes j = .ok bs)
    (hopen : s.closed = false)
    (hbuf : s.recvBuf = bs ++ rest) :
    clientRun s
      = ({(on_request connIO (some j) {s with recvBuf := rest}).1 with closed := true},
         (on_request connIO (some j) {s with recvBuf := rest}).2) := by
  have hread := clientReadNext_frame j s bs rest hlen hframe hopen hbuf
  rcases hp : on_request connIO (some j) {s with recvBuf := rest} with ⟨s2, r⟩
  simp [clientRun, pyFinally, pyBind_def, hread, sockClose, hp]

/-- C6 witness: the amended statement at the concrete two-envelope queue. -/
theorem C6_witness :
    clientRun (openConn (c6frame1 ++ c6frame2))
      = ({(on_request connIO (some c6env1)
            {openConn (c6frame1 ++ c6frame2) with recvBuf := c6frame2}).1 with closed := true},
         (on_request connIO (some c6env1)
            {openConn (c6frame1 ++ c6frame2) with recvBuf := c6frame2}).2) :=
  C6_run_reads_single_envelope c6env1 (openConn (c6frame1 ++ c6frame2)) c6frame1 c6frame2
    (by decide) (by decide) rfl rfl

/-! ### Claim C7 — no ConnectionClosedError for pending send_request -/

/-- C7 counterexample: a caller inside `send_request` when the stream has
terminated is not failed with a `ConnectionClosedError`: `read_next`
returns `None` and subscripting it raises `TypeError`, which is what the
caller observes (the embedding's `Err` type has no connection-closed error
because the code defines none). -/
theorem C7_counterexample :
    (send_request connIO (.jnum 1) (openConn [])).2 = .error .typeError
    ∧ (send_request connIO (.jnum 1) (openConn [])).1.closed = true := by
  exact ⟨by decide, by decide⟩

/-- C7 (amended): when the session's stream has terminated, a pending
`send_request` caller writes its request, then `read_next` sees the
zero-byte prefix read, closes the transport and returns `None`, and the
caller fails with a `TypeError` from subscripting `None` — not with a
`ConnectionClosedError`, which the code never defines or raises. -/
theorem C7_send_request_fails_with_typeerror (s : ConnSt) (d : Json) (bs : List Nat)
    (hopen : s.closed = false) (hbuf : s.recvBuf = [])
    (hframe : frameBytes (requestEnvelope (natToChars s.nextId) d) = .ok bs) :
    send_request connIO d s
      = ({s with
          sentBytes := s.sentBytes ++ bs
          nextId := s.nextId + 1
          closed := true}, .error .typeError) := by
  have hsend := clientSend_ok (requestEnvelope (natToChars s.nextId) d) bs
    {s with nextId := s.nextId + 1} hopen hframe
  rw [← connIO_send] at hsend
  have hread := clientReadNext_empty
    {s with nextId := s.nextId + 1, sentBytes := s.sentBytes ++ bs} hopen hbuf
  rw [← connIO_read_next] at hread
  have hstep := send_request_steps connIO d s
    {s with nextId := s.nextId + 1}
    {s with nextId := s.nextId + 1, sentBytes := s.sentBytes ++ bs}
    {s with nextId := s.nextId + 1, sentBytes := s.sentBytes ++ bs, recvBuf := [], closed := true}
    (natToChars s.nextId)
    (connIO_genId s) hsend hread
  rw [hbuf]
  exact hstep

/-- The request frame the C7 witness writes before it gets stuck. -/
def c7frame : List Nat :=
  (frameBytes (requestEnvelope (natToChars 0) (.jnum 5))).toOption.getD []

/-- C7 witness: the amended statement at a concrete state. -/
theorem C7_witness :
    send_request connIO (.jnum 5) (openConn [])
      = ({openConn [] with sentBytes := [] ++ c7frame, nextId := 0 + 1, closed := true},
         .error .typeError) :=
  C7_send_request_fails_with_typeerror (openConn []) (.jnum 5) c7frame rfl rfl (by decide)

/-! ### Claim C8 — zero-byte length read: clean at read level, crash at run level -/

/-- C8: a length-prefix read of zero bytes (peer closed before sending
anything) is handled inside `read_next` as an end-of-session signal
(socket closed, `None` returned, no exception: first two conjuncts) — but
the session does NOT terminate cleanly: `run` passes the `None` on to
`on_request`, which raises `TypeError` on `None["data"]`, and the handler
raises `TypeError` again on `None["id"]`, so the exception escapes `run`
and the thread dies with it (last two conjuncts: the `finally` still
closes the socket, and the `TypeError` escapes).  The spec's
clean-termination intent is explicit; the unconditional
`on_request(self.read_next())` in `ClientHandler.run` is the slip. -/
theorem C8_zero_length_read_crashes_session :
    (clientReadNext (openConn [])).2 = .ok none
    ∧ (clientReadNext (openConn [])).1.closed = true
    ∧ (clientRun (openConn [])).2 = .error .typeError
    ∧ (clientRun (openConn [])).1.closed = true := by
  exact ⟨by decide, by decide, by decide, by decide⟩

end Broomrocket
